import Mathlib

/-!
# Verification of the QUIC interception core (`mitmproxy/proxy/layers/quic.py`)

This file gives a shallow embedding of the QUIC layer state machine of the
repository into Lean and proves properties of it.  Each Python function of
`src/mitmproxy/proxy/layers/quic.py` that the claims touch is translated into
an executable Lean definition; generator functions that `yield` commands are
modelled as functions returning the list of yielded commands next to the
updated state, `assert` statements as `Option`-valued failure, and addon
hooks that may mutate a message in place as explicit mutation functions
passed in as parameters.

External collaborators (the aioquic engine, the UDP runtime and the addon
machinery) are out of scope of the repository and are modelled by their
interface: engine method calls (`send_stream_data`, `close`, ...) are
recorded as emitted commands, engine-observable state (`_close_event`,
pending events, `get_timer`) is carried in small record types, and times are
rationals.
-/

set_option maxRecDepth 8000

namespace QuicProof

/-- Raw bytes, modelled as lists of byte values. -/
abbrev Bytes := List Nat

/-- `aioquic.quic.connection.stream_is_client_initiated`: bit 0 clear. -/
def stream_is_client_initiated (stream_id : Nat) : Bool :=
  stream_id % 2 == 0

/-- `aioquic.quic.connection.stream_is_unidirectional`: bit 1 set. -/
def stream_is_unidirectional (stream_id : Nat) : Bool :=
  stream_id / 2 % 2 == 1

/-- `QuicErrorCode.NO_ERROR` from the engine library. -/
def QuicErrorCode_NO_ERROR : Nat := 0x0

/-- `H3ErrorCode.H3_NO_ERROR` from the HTTP/3 library. -/
def H3ErrorCode_H3_NO_ERROR : Nat := 0x100

/-- `is_success_error_code` (quic.py lines 189-192): whether the given error
code actually indicates no error. -/
def is_success_error_code (error_code : Nat) : Bool :=
  error_code == QuicErrorCode_NO_ERROR || error_code == H3ErrorCode_H3_NO_ERROR

/-- Name lookup into the external `H3ErrorCode` enum (representative values;
the enum lives in the engine library, outside this repository). -/
def H3ErrorCode_name (error_code : Nat) : Option String :=
  if error_code == 0x100 then some "H3_NO_ERROR"
  else if error_code == 0x101 then some "H3_GENERAL_PROTOCOL_ERROR"
  else if error_code == 0x102 then some "H3_INTERNAL_ERROR"
  else none

/-- Name lookup into the external `QuicErrorCode` enum (representative
values; the enum lives in the engine library, outside this repository). -/
def QuicErrorCode_name (error_code : Nat) : Option String :=
  if error_code == 0x0 then some "NO_ERROR"
  else if error_code == 0x1 then some "INTERNAL_ERROR"
  else if error_code == 0xA then some "PROTOCOL_VIOLATION"
  else if error_code == 0xC then some "APPLICATION_ERROR"
  else none

/-- `error_code_to_str` (quic.py lines 177-186): the name of the error code,
trying the HTTP/3 enum first, then the QUIC enum, then a generic string. -/
def error_code_to_str (error_code : Nat) : String :=
  match H3ErrorCode_name error_code with
  | some s => s
  | none =>
    match QuicErrorCode_name error_code with
    | some s => s
    | none => "unknown error"

/-- The engine's event variants used by the layer
(`aioquic.quic.events`, reproduced by interface). -/
inductive QuicEvent where
  | connectionIdIssued (cid : Bytes)
  | connectionIdRetired (cid : Bytes)
  | handshakeCompleted (alpn : String) (earlyData : Bool) (resumed : Bool)
  | connectionTerminated (errorCode : Nat) (frameType : Option Nat) (reason : String)
  | pingAcknowledged
  | protocolNegotiated
  | datagramFrameReceived (data : Bytes)
  | streamDataReceived (streamId : Nat) (data : Bytes) (endStream : Bool)
  | streamReset (streamId : Nat) (errorCode : Nat)
deriving DecidableEq, Repr

/-- Commands and effects yielded by the layers.  Engine method calls on a
peer engine are recorded as commands tagged with the side (`toClient`) whose
engine is being driven; hook commands record which hook fired. -/
inductive Cmd where
  | log (msg : String) (level : String)
  | tcpStartHook
  | tcpMessageHook
  | tcpErrorHook
  | tcpEndHook
  | udpStartHook
  | udpMessageHook
  | udpErrorHook
  | udpEndHook
  | tlsFailedClientHook
  | tlsFailedServerHook
  | tlsEstablishedClientHook
  | tlsEstablishedServerHook
  | quicTlsStartClientHook
  | quicTlsStartServerHook
  | sendDatagramFrame (toClient : Bool) (data : Bytes)
  | sendStreamData (toClient : Bool) (streamId : Nat) (data : Bytes) (endStream : Bool)
  | resetStream (toClient : Bool) (streamId : Nat) (errorCode : Nat)
  | closeQuic (toClient : Bool) (errorCode : Nat) (frameType : Option Nat) (reason : String)
  | quicTransmit (toClient : Bool)
  | closeConnection (toClient : Bool)
  | sendData (toClient : Bool) (data : Bytes)
  | sendVersionNegotiation (sourceCid : Bytes) (destinationCid : Bytes) (versions : List Nat)
  | writeThroughRoute (handler : Nat) (data : Bytes)
  | requestWakeup (token : Nat) (delta : Rat)
  | openConnection
  | engineConnect
  | tlsClienthelloHook
  | toChildQuicStart
  | toChildQuicConnectionEvent (event : QuicEvent)
  | toChildOpenConnectionCompleted (err : Option String)
  | toChildConnectionClosed
deriving DecidableEq, Repr

/-- A `tcp.TCPFlow` as observed by the relay: the ordered message list
(each message is `(from_client, content)`), the error field and the live
flag. -/
structure TCPFlow where
  messages : List (Bool × Bytes)
  error : Option String
  live : Bool
deriving DecidableEq, Repr

/-- A `udp.UDPFlow` as observed by the relay. -/
structure UDPFlow where
  messages : List (Bool × Bytes)
  error : Option String
  live : Bool
deriving DecidableEq, Repr

/-- Per-stream bookkeeping (`QuicStream`, quic.py lines 254-294).  The flow
is `none` for ignored streams. -/
structure QuicStream where
  flow : Option TCPFlow
  streamId : Nat
  endedClient : Bool
  endedServer : Bool
deriving DecidableEq, Repr

/-- `QuicStream.__init__`: derive the directional ended flags from the
stream id and create a live flow unless ignored. -/
def QuicStream.mk0 (stream_id : Nat) (ignore : Bool) : QuicStream :=
  let is_unidirectional := stream_is_unidirectional stream_id
  let from_client := stream_is_client_initiated stream_id
  { flow := if ignore then none else some { messages := [], error := none, live := true }
    streamId := stream_id
    endedClient := is_unidirectional && !from_client
    endedServer := is_unidirectional && from_client }

/-- `QuicStream.has_ended`. -/
def QuicStream.has_ended (s : QuicStream) (client : Bool) : Bool :=
  if client then s.endedClient else s.endedServer

/-- `QuicStream.mark_ended` (quic.py lines 272-294).  Returns `none` when the
`assert not self._ended_*` assertion fails, otherwise the updated stream and
the yielded hook commands. -/
def QuicStream.mark_ended (s : QuicStream) (client : Bool) (err : Option String) :
    Option (QuicStream × List Cmd) :=
  -- ensure we actually change the ended state
  if s.has_ended client then none else
  let s :=
    if client then { s with endedClient := true } else { s with endedServer := true }
  -- we're done if the stream is ignored
  match s.flow with
  | none => some (s, [])
  | some f =>
    -- set and report the first error
    let (f, cmds₁) :=
      match err, f.error with
      | some e, none => ({ f with error := some e }, [Cmd.tcpErrorHook])
      | _, _ => (f, [])
    -- report error-free endings and always clear the live flag
    if s.endedClient && s.endedServer then
      let cmds₂ := if f.error = none then [Cmd.tcpEndHook] else []
      some ({ s with flow := some { f with live := false } }, cmds₁ ++ cmds₂)
    else
      some ({ s with flow := some f }, cmds₁)

/-- An engine's `ConnectionTerminated` close event (`_close_event`),
as observed through the engine interface. -/
structure CloseEvt where
  errorCode : Nat
  frameType : Option Nat
  reason : String
deriving DecidableEq, Repr

/-- Observable state of one engine reference held by the relay. -/
structure EngineObs where
  closeEvent : Option CloseEvt
deriving DecidableEq, Repr

/-- State of `QuicStreamLayer`: the pending-event buffers, the optional UDP
flow, the two engine references (set by `QuicStart`), the stream table, and
the connected flags of the two endpoint connections. -/
structure RelayState where
  bufferFromClient : List QuicEvent
  bufferFromServer : List QuicEvent
  flow : Option UDPFlow
  quicClient : Option EngineObs
  quicServer : Option EngineObs
  streamsById : List (Nat × QuicStream)
  clientConnected : Bool
  serverConnected : Bool
deriving DecidableEq, Repr

/-- The addons reachable through the message hooks: a hook may mutate the
just-appended message's content in place before the relay reads it back.
`mutateTcp`/`mutateUdp` give the content after the hook returns as a function
of the content before it. -/
structure Addons where
  mutateTcp : Bytes → Bytes
  mutateUdp : Bytes → Bytes

/-- Replace the entry of `id` in the stream table (Python mutates the stored
`QuicStream` object in place). -/
def setStream (l : List (Nat × QuicStream)) (id : Nat) (s : QuicStream) :
    List (Nat × QuicStream) :=
  l.map (fun e => if e.1 = id then (id, s) else e)

/-- `QuicStreamLayer.get_or_create_stream` (quic.py lines 323-335). -/
def RelayState.get_or_create_stream (st : RelayState) (stream_id : Nat) :
    RelayState × QuicStream × List Cmd :=
  match st.streamsById.lookup stream_id with
  | some s => (st, s, [])
  | none =>
    -- register the stream and start the flow
    let s := QuicStream.mk0 stream_id st.flow.isNone
    let st := { st with streamsById := st.streamsById ++ [(stream_id, s)] }
    match s.flow with
    | some _ => (st, s, [Cmd.tcpStartHook])
    | none => (st, s, [])

/-- The `DatagramFrameReceived` arm of `handle_quic_event` (quic.py lines
349-358): forward datagrams (that are not stream-bound). -/
def handle_datagram_frame (ad : Addons) (st : RelayState) (d : Bytes)
    (from_client : Bool) : RelayState × List Cmd :=
  let toClient := !from_client
  match st.flow with
  | some f =>
    let content := ad.mutateUdp d
    let st := { st with
      flow := some { f with messages := f.messages ++ [(from_client, content)] } }
    (st, [Cmd.udpMessageHook, Cmd.sendDatagramFrame toClient content,
          Cmd.quicTransmit toClient])
  | none =>
    (st, [Cmd.sendDatagramFrame toClient d, Cmd.quicTransmit toClient])

/-- The `StreamDataReceived` arm of `handle_quic_event` (quic.py lines
360-383): ignore data on already ended streams, otherwise append the
message, fire the hook, forward the read-back content with the unchanged
`end_stream` flag, and mark the side ended if `end_stream` is set. -/
def handle_stream_data (ad : Addons) (st : RelayState) (sid : Nat) (d : Bytes)
    (fin : Bool) (from_client : Bool) : Option (RelayState × List Cmd) :=
  let toClient := !from_client
  match st.get_or_create_stream sid with
  | (st, stream, cmds₀) =>
    if stream.has_ended from_client then
      some (st, cmds₀ ++ [Cmd.log "Received data on already closed stream." "debug"])
    else
      let (stream, data, cmds₁) :=
        match stream.flow with
        | some f =>
          let content := ad.mutateTcp d
          ({ stream with
             flow := some { f with messages := f.messages ++ [(from_client, content)] } },
           content, [Cmd.tcpMessageHook])
        | none => (stream, d, [])
      let sendCmd := Cmd.sendStreamData toClient stream.streamId data fin
      if fin then
        match stream.mark_ended from_client none with
        | none => none
        | some (stream, cmds₂) =>
          some ({ st with streamsById := setStream st.streamsById sid stream },
                cmds₀ ++ cmds₁ ++ [sendCmd] ++ cmds₂ ++ [Cmd.quicTransmit toClient])
      else
        some ({ st with streamsById := setStream st.streamsById sid stream },
              cmds₀ ++ cmds₁ ++ [sendCmd, Cmd.quicTransmit toClient])

/-- The `StreamReset` arm of `handle_quic_event` (quic.py lines 385-399). -/
def handle_stream_reset (st : RelayState) (sid : Nat) (code : Nat)
    (from_client : Bool) : Option (RelayState × List Cmd) :=
  let toClient := !from_client
  match st.get_or_create_stream sid with
  | (st, stream, cmds₀) =>
    if stream.has_ended from_client then
      some (st, cmds₀ ++ [Cmd.log "Received reset for already closed stream." "debug"])
    else
      match stream.mark_ended from_client (some (error_code_to_str code)) with
      | none => none
      | some (stream, cmds₂) =>
        some ({ st with streamsById := setStream st.streamsById sid stream },
              cmds₀ ++ [Cmd.resetStream toClient stream.streamId code] ++ cmds₂
                ++ [Cmd.quicTransmit toClient])

/-- `QuicStreamLayer.handle_quic_event` (quic.py lines 337-407).  Returns
`none` exactly when an assertion inside `mark_ended` would fail. -/
def handle_quic_event (ad : Addons) (st : RelayState) (event : QuicEvent)
    (from_client : Bool) : Option (RelayState × List Cmd) :=
  -- buffer events if the peer is not ready yet
  match (if from_client then st.quicServer else st.quicClient) with
  | none =>
    some (if from_client
      then { st with bufferFromClient := st.bufferFromClient ++ [event] }
      else { st with bufferFromServer := st.bufferFromServer ++ [event] }, [])
  | some _ =>
    match event with
    | .datagramFrameReceived d => some (handle_datagram_frame ad st d from_client)
    | .streamDataReceived sid d fin => handle_stream_data ad st sid d fin from_client
    | .streamReset sid code => handle_stream_reset st sid code from_client
    | _ =>
      -- ignore other QUIC events (and do not transmit)
      some (st, [Cmd.log "Ignored QUIC event." "debug"])

/-- Events dispatched to the relay's ready state.  An injected TCP message
is identified by the stream id owning its flow; an injected UDP message
belongs to the relay's own datagram flow. -/
inductive RelayEvent where
  | connectionClosed (client : Bool)
  | quicStart (client : Bool) (engine : EngineObs)
  | quicConnectionEvent (from_client : Bool) (event : QuicEvent)
  | tcpMessageInjected (flowStreamId : Nat) (content : Bytes) (from_client : Bool)
  | udpMessageInjected (content : Bytes) (from_client : Bool)
deriving Repr

/-- The `for quic_event in buffer_from_peer` replay loop inside
`state_ready`'s `QuicStart` branch: handle the buffered events one after the
other, threading the relay state. -/
def replayBuffer (ad : Addons) (st : RelayState) (evs : List QuicEvent)
    (from_client : Bool) : Option (RelayState × List Cmd) :=
  match evs with
  | [] => some (st, [])
  | e :: rest =>
    match handle_quic_event ad st e from_client with
    | none => none
    | some (st, cmds) =>
      match replayBuffer ad st rest from_client with
      | none => none
      | some (st, cmds') => some (st, cmds ++ cmds')

/-- The `for stream in self.streams_by_id.values()` loop of `state_done`:
mark every stream that has not ended on `from_client`'s side with a
synthetic "Connection closed." error. -/
def markStreamsClosed (from_client : Bool) :
    List (Nat × QuicStream) → Option (List (Nat × QuicStream) × List Cmd)
  | [] => some ([], [])
  | (sid, s) :: rest =>
    if s.has_ended from_client then
      match markStreamsClosed from_client rest with
      | none => none
      | some (rest', cmds) => some ((sid, s) :: rest', cmds)
    else
      match s.mark_ended from_client (some "Connection closed.") with
      | none => none
      | some (s', cmds₁) =>
        match markStreamsClosed from_client rest with
        | none => none
        | some (rest', cmds₂) => some ((sid, s') :: rest', cmds₁ ++ cmds₂)

/-- `QuicStreamLayer.state_done` (quic.py lines 518-542). -/
def state_done (st : RelayState) (ev : RelayEvent) : Option (RelayState × List Cmd) :=
  match ev with
  | .connectionClosed from_client =>
    -- report the termination as error to all non-ended streams
    match markStreamsClosed from_client st.streamsById with
    | none => none
    | some (streams, cmds₁) =>
      let st := { st with streamsById := streams }
      -- end the main flow
      match st.flow with
      | some f =>
        if !st.clientConnected && !st.serverConnected then
          let cmds₂ := if f.error = none then [Cmd.udpEndHook] else []
          some ({ st with flow := some { f with live := false } }, cmds₁ ++ cmds₂)
        else some (st, cmds₁)
      | none => some (st, cmds₁)
  | _ => some (st, [])

/-- The `ConnectionClosed` branch of `QuicStreamLayer.state_ready`
(quic.py lines 435-468): close the peer (with the closed engine's close
event when both are available), report a non-success error code on the main
flow, then run the generic close handling of `state_done`. -/
def state_ready_closed (st : RelayState) (from_client : Bool) :
    Option (RelayState × List Cmd) :=
  -- define helper variables
  let peer_quic := if from_client then st.quicServer else st.quicClient
  let closed_quic := if from_client then st.quicClient else st.quicServer
  let close_event := closed_quic.bind (fun q => q.closeEvent)
  let toClient := !from_client
  -- close the peer as well (needs to be before hooks)
  let cmds₁ :=
    match peer_quic, close_event with
    | some _, some ce =>
      [Cmd.closeQuic toClient ce.errorCode ce.frameType ce.reason,
       Cmd.quicTransmit toClient]
    | _, _ => [Cmd.closeConnection toClient]
  -- report errors to the main flow
  let (st, cmds₂) :=
    match st.flow, close_event with
    | some f, some ce =>
      if !is_success_error_code ce.errorCode then
        let errStr := if ce.reason == "" then error_code_to_str ce.errorCode else ce.reason
        ({ st with flow := some { f with error := some errStr } }, [Cmd.udpErrorHook])
      else (st, [])
    | _, _ => (st, [])
  -- we're done handling QUIC events, pass on to generic close handling
  match state_done st (.connectionClosed from_client) with
  | none => none
  | some (st, cmds₃) => some (st, cmds₁ ++ cmds₂ ++ cmds₃)

/-- `QuicStreamLayer.state_ready` (quic.py lines 427-516).  The runtime
clears the endpoint's `connected` flag before delivering `ConnectionClosed`,
which the model applies on entry of that branch. -/
def state_ready (ad : Addons) (st : RelayState) (ev : RelayEvent) :
    Option (RelayState × List Cmd) :=
  match ev with
  | .connectionClosed from_client =>
    state_ready_closed
      (if from_client then { st with clientConnected := false }
       else { st with serverConnected := false })
      from_client
  | .quicStart client engine =>
    -- store the connection and flush the peer's buffer to the other side
    if client then
      match st.quicClient with
      | some _ => none
      | none =>
        let buf := st.bufferFromServer
        let st := { st with quicClient := some engine }
        match replayBuffer ad st buf false with
        | none => none
        | some (st, cmds) => some ({ st with bufferFromServer := [] }, cmds)
    else
      match st.quicServer with
      | some _ => none
      | none =>
        let buf := st.bufferFromClient
        let st := { st with quicServer := some engine }
        match replayBuffer ad st buf true with
        | none => none
        | some (st, cmds) => some ({ st with bufferFromClient := [] }, cmds)
  | .tcpMessageInjected fid content from_client =>
    -- translate injected TCP messages into QUIC stream events
    match st.streamsById.lookup fid with
    | none => none
    | some stream =>
      handle_quic_event ad st (.streamDataReceived stream.streamId content false) from_client
  | .udpMessageInjected content from_client =>
    -- translate injected UDP messages into QUIC datagram events
    match st.flow with
    | none => none
    | some _ => handle_quic_event ad st (.datagramFrameReceived content) from_client
  | .quicConnectionEvent from_client event =>
    -- handle or buffer QUIC events
    handle_quic_event ad st event from_client

/-! ## `QuicLayer` (base class)

A `QuicLayer` owns one engine instance.  The engine is modelled through its
interface: the queue of pending events drained by `next_event`, the outgoing
datagram queue drained by `datagrams_to_send`, the deadline returned by
`get_timer`, and whether `_set_state(TERMINATED)` has been applied.  Times
are rationals; `RequestWakeup` commands are identified by fresh tokens,
modelling Python object identity of the command used as the dictionary key
of `_wakeup_commands`.  The child layer is modelled as a sink: events
forwarded to it are recorded as `toChild*` commands (the commands a child
emits back are the subject of the `ServerQuicLayer` model below). -/

/-- Engine-observable state of the engine owned by a `QuicLayer`. -/
structure EngineState where
  events : List QuicEvent
  datagramsToSend : List (Bytes × Nat)
  timer : Rat
  stateTerminated : Bool
deriving DecidableEq, Repr

/-- The endpoint `connection.Connection` attributes the layer reads and
writes (`tls_established` abbreviates `timestamp_tls_setup is not None`). -/
structure ConnState where
  connected : Bool
  tlsEstablished : Bool
  errorMsg : Option String
deriving DecidableEq, Repr

/-- State of a `QuicLayer` (quic.py lines 546-560). -/
structure QuicLayerState where
  quic : Option EngineState
  tlsSet : Bool
  conn : ConnState
  wakeups : List (Nat × Rat)
  nextToken : Nat
  routes : List (Nat × Option Nat)
  now : Rat
  isClientConn : Bool
  peername : Nat
deriving DecidableEq, Repr

/-- Routing of one outgoing datagram in `transmit` (quic.py lines 818-828):
to the peer directly, through a registered roaming route, or logged and
dropped. -/
def route_datagram (st : QuicLayerState) (p : Bytes × Nat) : Cmd :=
  if p.2 == st.peername then Cmd.sendData st.isClientConn p.1
  else
    match st.routes.lookup p.2 with
    | some (some handler) => Cmd.writeThroughRoute handler p.1
    | _ => Cmd.log "No route." "info"

/-- `QuicLayer.transmit` (quic.py lines 813-835): send all queued datagrams,
then request a new wakeup iff every pending request triggers strictly after
the engine's timer. -/
def transmit (st : QuicLayerState) : Option (QuicLayerState × List Cmd) :=
  match st.quic with
  | none => none
  | some q =>
    -- send all queued datagrams
    let sendCmds := q.datagramsToSend.map (route_datagram st)
    let st := { st with quic := some { q with datagramsToSend := [] } }
    -- request a new wakeup if all pending requests trigger at a later time
    let timer := q.timer
    if st.wakeups.any (fun e => decide (e.2 ≤ timer)) then
      some (st, sendCmds)
    else
      some ({ st with
                wakeups := st.wakeups ++ [(st.nextToken, timer)],
                nextToken := st.nextToken + 1 },
            sendCmds ++ [Cmd.requestWakeup st.nextToken (timer - st.now)])

/-- `QuicLayer.handle_connection_terminated` (quic.py lines 672-697).
`none` models a failed assertion (`quic`/`tls` present, engine state
`TERMINATED`). -/
def handle_connection_terminated (st : QuicLayerState) (errorCode : Nat)
    (reason : String) : Option (QuicLayerState × List Cmd) :=
  match st.quic with
  | none => none
  | some q =>
    if !st.tlsSet then none
    else if !q.stateTerminated then none
    else
      -- report as TLS failure if the termination happened before the handshake
      let reasonStr := if reason == "" then error_code_to_str errorCode else reason
      let (st, hookCmds) :=
        if !st.conn.tlsEstablished then
          ({ st with conn := { st.conn with errorMsg := some reasonStr } },
           [if st.isClientConn then Cmd.tlsFailedClientHook else Cmd.tlsFailedServerHook])
        else (st, [])
      -- clear only quic, tls will indicate we already did start_tls
      some ({ st with quic := none },
            hookCmds ++ [Cmd.log ("QUIC connection destroyed: " ++ reasonStr)
              (if is_success_error_code errorCode then "debug" else "info")])

/-- `QuicLayer.handle_handshake_completed` (quic.py lines 699-733).  The TLS
properties copied onto the connection (alpn, cipher, certificates,
timestamp) are summarised by the `tlsEstablished` flag the layer reads
back. -/
def handle_handshake_completed (st : QuicLayerState) :
    Option (QuicLayerState × List Cmd) :=
  match st.quic with
  | none => none
  | some _ =>
    if !st.tlsSet then none
    else if st.conn.tlsEstablished then none
    else
      let st := { st with conn := { st.conn with tlsEstablished := true } }
      some (st,
        [(if st.isClientConn then Cmd.tlsEstablishedClientHook
          else Cmd.tlsEstablishedServerHook),
         Cmd.log "QUIC connection established." "debug"])

/-- The `while event is not None` drain loop of `QuicLayer.process_events`
(quic.py lines 741-774): handle the queued engine events in arrival order;
a `ConnectionTerminated` stops the drain (no transmit), otherwise `transmit`
runs after the last event. -/
def drainEvents (st : QuicLayerState) : List QuicEvent → Option (QuicLayerState × List Cmd)
  | [] => transmit st
  | e :: rest =>
    match e with
    | .connectionIdIssued _ => drainEvents st rest
    | .connectionIdRetired _ => drainEvents st rest
    | .connectionTerminated code _ reason =>
      match handle_connection_terminated st code reason with
      | none => none
      | some (st, cmds) =>
        -- also close the connection; we don't handle any further events,
        -- nor do/can we transmit data, so exit
        some (st, cmds ++
          (if st.conn.connected then [Cmd.closeConnection st.isClientConn] else []))
    | .handshakeCompleted _ _ _ =>
      match handle_handshake_completed st with
      | none => none
      | some (st, cmds) =>
        -- notify child layer
        match drainEvents st rest with
        | none => none
        | some (st, cmds') => some (st, cmds ++ [Cmd.toChildQuicStart] ++ cmds')
    | .pingAcknowledged => drainEvents st rest
    | .protocolNegotiated => drainEvents st rest
    | .datagramFrameReceived _ | .streamDataReceived _ _ _ | .streamReset _ _ =>
      -- must be post-handshake event
      if !st.conn.tlsEstablished then none
      else
        match drainEvents st rest with
        | none => none
        | some (st', cmds') => some (st', Cmd.toChildQuicConnectionEvent e :: cmds')

/-- `QuicLayer.process_events` (quic.py lines 735-774). -/
def process_events (st : QuicLayerState) : Option (QuicLayerState × List Cmd) :=
  match st.quic with
  | none => none
  | some q => drainEvents { st with quic := some { q with events := [] } } q.events

/-- The `Wakeup` branch of `QuicLayer._handle_event` (quic.py lines
592-600): the fired command's entry is popped, then (if an engine exists)
`handle_timer` runs and `process_events` drains.  `engineAfterTimer` is the
arbitrary engine state after `handle_timer`; `none` models a `Wakeup` for a
command not in the registry, which the layer forwards to the child
instead. -/
def handle_wakeup (st : QuicLayerState) (token : Nat)
    (engineAfterTimer : EngineState) : Option (QuicLayerState × List Cmd) :=
  match st.wakeups.lookup token with
  | none => none
  | some _ =>
    let st := { st with wakeups := st.wakeups.filter (fun e => e.1 ≠ token) }
    match st.quic with
    | none => some (st, [])
    | some _ => process_events { st with quic := some engineAfterTimer }

/-! ## `ServerQuicLayer` -/

/-- State of a `ServerQuicLayer` (quic.py lines 838-904): the base layer
state plus whether an `OpenConnection` command from the child is being held
in `_open_command`. -/
structure ServerLayerState where
  core : QuicLayerState
  openCommandPending : Bool
deriving DecidableEq, Repr

/-- The `OpenConnection` interception of `ServerQuicLayer.event_to_child`
(quic.py lines 866-895), for a child `OpenConnection(self.conn)` while
`self.tls is None`.  `openErr` is the runtime's reply to the re-issued
`OpenConnection`; `tlsProvided` is whether the addon populates TLS settings
in `start_tls`; `freshEngine` is the newly constructed engine.  `none`
models the `assert self._open_command is None` failure (or the branch not
being taken because TLS already ran). -/
def server_open_connection (st : ServerLayerState) (openErr : Option String)
    (tlsProvided : Bool) (freshEngine : EngineState) :
    Option (ServerLayerState × List Cmd) :=
  if st.core.tlsSet then none
  else if st.openCommandPending then none
  else
    -- store the command, try to connect with upstream
    let st := { st with openCommandPending := true }
    match openErr with
    | some e =>
      -- notify the child layer immediately about the error
      some ({ st with openCommandPending := false },
            [Cmd.openConnection, Cmd.toChildOpenConnectionCompleted (some e)])
    | none =>
      -- start_tls(None): query addons to provide the necessary TLS settings
      if !tlsProvided then
        -- TLS failed, close the connection (notify the child layer once it is closed)
        some (st, [Cmd.openConnection, Cmd.quicTlsStartServerHook,
                   Cmd.log "No QUIC TLS settings provided by addon(s)." "error",
                   Cmd.closeConnection st.core.isClientConn])
      else
        -- connect to server (notify the child layer after handshake)
        let core := { st.core with tlsSet := true, quic := some freshEngine }
        match process_events core with
        | none => none
        | some (core, cmds) =>
          some ({ st with core := core },
                [Cmd.openConnection, Cmd.quicTlsStartServerHook,
                 Cmd.log "QUIC connection created." "debug",
                 Cmd.engineConnect] ++ cmds)

/-- The `ConnectionClosed` branch of `ServerQuicLayer._handle_event`
(quic.py lines 847-864), taken when `self._open_command is not None`;
`none` models the fall-through to the base class handling. -/
def server_handle_connection_closed (st : ServerLayerState) :
    Option (ServerLayerState × List Cmd) :=
  if st.openCommandPending then
    let msg :=
      if st.core.tlsSet then "Connection closed before connect"
      else "TLS initialization failed"
    some ({ st with openCommandPending := false },
          [Cmd.toChildOpenConnectionCompleted (some msg)])
  else none

/-- `ServerQuicLayer.handle_handshake_completed` (quic.py lines 897-904):
the base handling, then, if an open command is held, notify the child layer
that the connection is now open. -/
def server_handshake_completed (st : ServerLayerState) :
    Option (ServerLayerState × List Cmd) :=
  match handle_handshake_completed st.core with
  | none => none
  | some (core, cmds) =>
    if st.openCommandPending then
      some ({ core := core, openCommandPending := false },
            cmds ++ [Cmd.toChildOpenConnectionCompleted none])
    else
      some ({ st with core := core }, cmds)

/-! ## `ClientQuicLayer`: connection-ID registry -/

/-- Keys of the process-wide `ClientQuicLayer.connections` table:
`(sockname, connection id)`. -/
abbrev CidKey := Nat × Bytes

/-- The process-wide `ClientQuicLayer.connections` dictionary, as an
insertion-ordered association list from key to owning layer (layers are
identified by numbers). -/
abbrev CidTable := List (CidKey × Nat)

/-- `ClientQuicLayer.handle_connection_id_issued` (quic.py lines
1036-1040): assert the key is absent, then insert it owned by this layer. -/
def client_handle_connection_id_issued (table : CidTable) (layerId : Nat)
    (sockname : Nat) (cid : Bytes) : Option CidTable :=
  let key : CidKey := (sockname, cid)
  match table.lookup key with
  | some _ => none
  | none => some (table ++ [(key, layerId)])

/-- `ClientQuicLayer.handle_connection_id_retired` (quic.py lines
1042-1046): assert the key is owned by this layer, then delete it. -/
def client_handle_connection_id_retired (table : CidTable) (layerId : Nat)
    (sockname : Nat) (cid : Bytes) : Option CidTable :=
  let key : CidKey := (sockname, cid)
  match table.lookup key with
  | none => none
  | some owner =>
    if owner == layerId then some (table.filter (fun e => e.1 ≠ key)) else none

/-- Effect of `QuicLayer.handle_connection_terminated` (quic.py lines
672-697) on the `ClientQuicLayer.connections` table: the handler clears
`self.quic` and fires hooks but performs no table operation. -/
def terminated_table_effect (table : CidTable) (_layerId : Nat) : CidTable :=
  table

/-- The table-relevant operations over a connection's lifetime. -/
inductive CidOp where
  | issued (layerId sockname : Nat) (cid : Bytes)
  | retired (layerId sockname : Nat) (cid : Bytes)
  | terminated (layerId : Nat)
deriving DecidableEq, Repr

/-- Run a sequence of registry operations; `none` when some assertion
fails. -/
def runCidOps : CidTable → List CidOp → Option CidTable
  | t, [] => some t
  | t, op :: ops =>
    match op with
    | .issued l s c =>
      match client_handle_connection_id_issued t l s c with
      | none => none
      | some t' => runCidOps t' ops
    | .retired l s c =>
      match client_handle_connection_id_retired t l s c with
      | none => none
      | some t' => runCidOps t' ops
    | .terminated l => runCidOps (terminated_table_effect t l) ops

/-! ## `ClientQuicLayer`: first-datagram handling -/

/-- The QUIC header returned by the external `pull_quic_header`
(`version is None` for short headers). -/
structure QuicHeaderM where
  version : Option Nat
  isInitial : Bool
  destinationCid : Bytes
  sourceCid : Bytes
deriving DecidableEq, Repr

/-- Python's `x in gen` on a generator object: elements are consumed until
one equals `x` or the generator is exhausted; the unconsumed remainder stays
in the generator.  Returns (found, remainder). -/
def genContains (v : Nat) : List Nat → Bool × List Nat
  | [] => (false, [])
  | x :: xs => if x == v then (true, xs) else genContains v xs

/-- The external inputs `ClientQuicLayer.datagram_received` consults.
`allVersions` enumerates the engine's `QuicProtocolVersion` members
(`NEGOTIATION = 0` included); the hook fields describe the addon's decisions
and the runtime's replies along the new-handshake path. -/
structure DgramEnv where
  allVersions : List Nat
  cidLookupHit : Bool
  canRoam : Bool
  dataLen : Nat
  clientHelloOk : Bool
  hookIgnore : Bool
  hookServerTlsFirst : Bool
  serverLayerExists : Bool
  serverTlsEstablished : Bool
  serverOpenErr : Option String
  tlsProvided : Bool
deriving DecidableEq, Repr

/-- Result of `datagram_received`: the yielded commands, the returned error
string, and whether a client engine was created (`start_tls` succeeded). -/
structure DgramResult where
  cmds : List Cmd
  err : Option String
  engineCreated : Bool
deriving DecidableEq, Repr

/-- `ClientQuicLayer.start_client_tls` (quic.py lines 1061-1110). -/
def start_client_tls (env : DgramEnv) (h : QuicHeaderM) : DgramResult :=
  -- ensure it's (likely) a client handshake packet
  if env.dataLen < 1200 || !h.isInitial then
    { cmds := [], err := some "Invalid handshake received.", engineCreated := false }
  else if !env.clientHelloOk then
    { cmds := [], err := some "Cannot parse ClientHello.", engineCreated := false }
  else
    -- check with addons what we shall do
    let hookCmds := [Cmd.tlsClienthelloHook]
    if env.hookIgnore then
      -- replace the QUIC layer with an UDP layer
      { cmds := hookCmds, err := none, engineCreated := false }
    else
      -- start the server QUIC connection if demanded and available
      let serverCmds :=
        if env.hookServerTlsFirst && !env.serverTlsEstablished then
          if env.serverLayerExists then
            match env.serverOpenErr with
            | some _ =>
              [Cmd.openConnection,
               Cmd.log "Unable to establish QUIC connection with server." "info"]
            | none => [Cmd.openConnection]
          else [Cmd.log "Unable to establish QUIC connection with server." "info"]
        else []
      -- start the client QUIC connection: start_tls(header.destination_cid)
      let tlsHook := [Cmd.quicTlsStartClientHook]
      if env.tlsProvided then
        { cmds := hookCmds ++ serverCmds ++ tlsHook
            ++ [Cmd.log "QUIC connection created." "debug"]
          err := none
          engineCreated := true }
      else
        { cmds := hookCmds ++ serverCmds ++ tlsHook
            ++ [Cmd.log "No QUIC TLS settings provided by addon(s)." "error"]
          err := some "TLS initialization failed."
          engineCreated := false }

/-- `ClientQuicLayer.datagram_received` (quic.py lines 992-1034).  `header`
is the result of the external `pull_quic_header` (`none`: `ValueError`). -/
def datagram_received (env : DgramEnv) (header : Option QuicHeaderM) : DgramResult :=
  match header with
  | none =>
    -- fail if the received data is not a QUIC packet
    { cmds := [], err := some "Invalid QUIC datagram received.", engineCreated := false }
  | some h =>
    -- negotiate version, support all versions known to aioquic:
    -- `supported_versions` is a generator expression over the enum members
    let supported := env.allVersions.filter (fun v => v ≠ 0)
    let afterVersion : DgramResult :=
      -- check if this is a new connection
      if !env.cidLookupHit then start_client_tls env h
      else if !env.canRoam then
        -- ensure that the layer can roam (usually not supported when nested)
        { cmds := [], err := some "Connection cannot roam.", engineCreated := false }
      else
        -- replace the layer with a roaming layer (re-dispatches the packet)
        { cmds := [], err := none, engineCreated := false }
    match h.version with
    | some v =>
      let r := genContains v supported
      if r.1 then afterVersion
      else
        { cmds := [Cmd.sendVersionNegotiation h.destinationCid h.sourceCid r.2]
          err := none
          engineCreated := false }
    | none => afterVersion

/-! ## Helper lemmas about `QuicStream.mark_ended` -/

theorem mark_ended_none_iff (s : QuicStream) (client : Bool) (err : Option String) :
    s.mark_ended client err = none ↔ s.has_ended client = true := by
  unfold QuicStream.mark_ended
  split
  · simp [*]
  · rename_i h
    simp only [Bool.not_eq_true] at h
    simp only [h]
    constructor
    · intro hc
      exfalso
      revert hc
      split
      · simp
      · split
        · split <;> simp
        · split <;> simp
    · simp

theorem mark_ended_flags (s : QuicStream) (client : Bool) (err : Option String)
    (s' : QuicStream) (cmds : List Cmd)
    (h : s.mark_ended client err = some (s', cmds)) :
    s'.endedClient = (s.endedClient || client)
      ∧ s'.endedServer = (s.endedServer || !client) := by
  unfold QuicStream.mark_ended at h
  split at h
  · exact absurd h (by simp)
  · rename_i hne
    unfold QuicStream.has_ended at hne
    cases client <;> simp only [Bool.not_eq_true] at hne <;>
      simp only [if_true, if_false, Bool.false_eq_true] at h <;>
      [skip; skip] <;>
      · split at h
        · simp only [Option.some.injEq, Prod.mk.injEq] at h
          obtain ⟨h1, _⟩ := h
          subst h1
          simp [hne]
        · split at h <;>
            first
              | (simp only [Option.some.injEq, Prod.mk.injEq] at h
                 obtain ⟨h1, _⟩ := h
                 subst h1
                 simp [hne])

/-- Closed-form restatement of a successful `mark_ended`, used to organise
proofs (shown equal to the source translation in `mark_ended_eq`). -/
def markEndedFun (s : QuicStream) (client : Bool) (err : Option String) :
    QuicStream × List Cmd :=
  let s' := if client then { s with endedClient := true } else { s with endedServer := true }
  match s'.flow with
  | none => (s', [])
  | some f =>
    let hit := err.isSome && f.error.isNone
    let f₁ := if hit then { f with error := err } else f
    let both := s'.endedClient && s'.endedServer
    let f₂ := if both then { f₁ with live := false } else f₁
    ({ s' with flow := some f₂ },
     (if hit then [Cmd.tcpErrorHook] else [])
       ++ (if both && f₁.error.isNone then [Cmd.tcpEndHook] else []))

theorem mark_ended_eq (s : QuicStream) (client : Bool) (err : Option String)
    (h : s.has_ended client = false) :
    s.mark_ended client err = some (markEndedFun s client err) := by
  unfold QuicStream.mark_ended markEndedFun
  simp only [h, Bool.false_eq_true, if_false]
  cases client <;>
    simp only [if_true, if_false, Bool.false_eq_true] <;>
    · split
      · rfl
      · rename_i f hf
        cases herr : err <;> cases hferr : f.error <;>
          simp_all <;> split <;> simp_all

theorem mark_ended_success_has_ended_false (s : QuicStream) (client : Bool)
    (err : Option String) (s' : QuicStream) (cmds : List Cmd)
    (h : s.mark_ended client err = some (s', cmds)) :
    s.has_ended client = false := by
  cases hh : s.has_ended client
  · rfl
  · have := (mark_ended_none_iff s client err).mpr hh
    rw [h] at this
    exact absurd this (by simp)

theorem mark_ended_error_hook (s : QuicStream) (f : TCPFlow) (client : Bool)
    (err : Option String) (s' : QuicStream) (cmds : List Cmd)
    (hf : s.flow = some f) (h : s.mark_ended client err = some (s', cmds)) :
    ((Cmd.tcpErrorHook ∈ cmds) ↔ (err.isSome = true ∧ f.error = none))
      ∧ ∃ f', s'.flow = some f'
          ∧ f'.error = (if err.isSome && f.error.isNone then err else f.error) := by
  have hne := mark_ended_success_has_ended_false s client err s' cmds h
  rw [mark_ended_eq s client err hne] at h
  simp only [Option.some.injEq] at h
  obtain ⟨rfl, rfl⟩ : s' = (markEndedFun s client err).1
      ∧ cmds = (markEndedFun s client err).2 := by
    rw [h]
    exact ⟨rfl, rfl⟩
  unfold markEndedFun
  cases client <;>
    simp only [if_true, if_false, Bool.false_eq_true] <;>
    · simp only [hf]
      cases herr : err <;> cases hferr : f.error <;>
        simp_all <;> split <;> simp_all

theorem mark_ended_both_ended (s : QuicStream) (f : TCPFlow) (client : Bool)
    (err : Option String) (s' : QuicStream) (cmds : List Cmd)
    (hf : s.flow = some f) (h : s.mark_ended client err = some (s', cmds))
    (hac : s'.endedClient = true) (has : s'.endedServer = true) :
    ∃ f', s'.flow = some f' ∧ f'.live = false
      ∧ ((Cmd.tcpEndHook ∈ cmds) ↔ f'.error = none) := by
  have hne := mark_ended_success_has_ended_false s client err s' cmds h
  rw [mark_ended_eq s client err hne] at h
  simp only [Option.some.injEq] at h
  obtain ⟨rfl, rfl⟩ : s' = (markEndedFun s client err).1
      ∧ cmds = (markEndedFun s client err).2 := by
    rw [h]
    exact ⟨rfl, rfl⟩
  revert hac has
  unfold markEndedFun
  cases client <;>
    simp only [if_true, if_false, Bool.false_eq_true] <;>
    · simp only [hf]
      intro hac has
      cases herr : err <;> cases hferr : f.error <;>
        simp_all

theorem lookup_setStream (l : List (Nat × QuicStream)) (id : Nat) (s s₀ : QuicStream)
    (h : l.lookup id = some s₀) : (setStream l id s).lookup id = some s := by
  induction l with
  | nil => simp [List.lookup] at h
  | cons e rest ih =>
    obtain ⟨k, v⟩ := e
    by_cases hk : k = id
    · subst hk
      simp only [setStream, List.map_cons]
      simp [List.lookup]
    · have hne : (id == k) = false := by
        simp only [beq_eq_false_iff_ne, ne_eq]
        exact fun hh => hk hh.symm
      simp only [List.lookup, hne] at h
      simp only [setStream, List.map_cons]
      rw [if_neg hk]
      simp only [List.lookup, hne]
      exact ih h

theorem has_ended_set_flow (s : QuicStream) (fl : Option TCPFlow) (client : Bool) :
    ({ s with flow := fl } : QuicStream).has_ended client = s.has_ended client := by
  cases client <;> simp [QuicStream.has_ended]

theorem markEndedFun_no_send (s : QuicStream) (c : Bool) (e : Option String)
    (tc : Bool) (i : Nat) (b : Bytes) (fl : Bool) :
    Cmd.sendStreamData tc i b fl ∉ (markEndedFun s c e).2 := by
  unfold markEndedFun
  cases c <;>
    simp only [if_true, if_false, Bool.false_eq_true] <;>
    · split
      · simp
      · split <;> split <;> simp

theorem markEndedFun_flow_messages (s : QuicStream) (c : Bool) (e : Option String)
    (f : TCPFlow) (hf : s.flow = some f) :
    ∃ f', (markEndedFun s c e).1.flow = some f' ∧ f'.messages = f.messages := by
  unfold markEndedFun
  cases c <;>
    simp only [if_true, if_false, Bool.false_eq_true] <;>
    · simp only [hf]
      split <;> split <;> simp

/-- Forwarding of `StreamDataReceived` with a registered peer engine, a
non-ignored stream and a not-yet-ended receiving side: the single
`send_stream_data` call on the peer engine carries exactly the appended
message's content after the hook and the unchanged `end_stream` flag. -/
theorem handle_stream_data_spec (ad : Addons) (st : RelayState) (sid : Nat)
    (d : Bytes) (fin from_client : Bool) (pe : EngineObs) (stream : QuicStream)
    (f : TCPFlow)
    (hp : (if from_client then st.quicServer else st.quicClient) = some pe)
    (hl : st.streamsById.lookup sid = some stream)
    (hf : stream.flow = some f)
    (he : stream.has_ended from_client = false) :
    ∃ st' cmds,
      handle_quic_event ad st (.streamDataReceived sid d fin) from_client = some (st', cmds)
      ∧ Cmd.sendStreamData (!from_client) stream.streamId (ad.mutateTcp d) fin ∈ cmds
      ∧ (∀ tc i b fl, Cmd.sendStreamData tc i b fl ∈ cmds →
           tc = !from_client ∧ i = stream.streamId ∧ b = ad.mutateTcp d ∧ fl = fin)
      ∧ ∃ stream' f', st'.streamsById.lookup sid = some stream'
          ∧ stream'.flow = some f'
          ∧ f'.messages = f.messages ++ [(from_client, ad.mutateTcp d)] := by
  cases fin
  · simp only [handle_quic_event, hp, handle_stream_data,
      RelayState.get_or_create_stream, hl, he, Bool.false_eq_true, if_false, hf]
    refine ⟨_, _, rfl, ?_, ?_, ?_⟩
    · simp
    · intro tc i b fl hm
      simp at hm
      rcases hm with hm | hm | hm
      all_goals simp_all
    · exact ⟨_, _, lookup_setStream _ _ _ _ hl, rfl, rfl⟩
  · simp only [handle_quic_event, hp, handle_stream_data,
      RelayState.get_or_create_stream, hl, he, Bool.false_eq_true, if_false, hf,
      if_true]
    split
    · rename_i hmk
      rw [mark_ended_none_iff, has_ended_set_flow] at hmk
      rw [he] at hmk
      exact absurd hmk (by simp)
    · rename_i s₃ cmds₂ hmk
      have he₂ : QuicStream.has_ended { stream with flow := some { f with messages := f.messages ++ [(from_client, ad.mutateTcp d)] } } from_client = false := by
        rw [has_ended_set_flow]
        exact he
      rw [mark_ended_eq _ from_client none he₂] at hmk
      simp only [Option.some.injEq] at hmk
      have hs₃ : s₃ = (markEndedFun { stream with flow := some { f with messages := f.messages ++ [(from_client, ad.mutateTcp d)] } } from_client none).1 := by rw [hmk]
      have hc₂ : cmds₂ = (markEndedFun { stream with flow := some { f with messages := f.messages ++ [(from_client, ad.mutateTcp d)] } } from_client none).2 := by rw [hmk]
      refine ⟨_, _, rfl, ?_, ?_, ?_⟩
      · simp only [List.nil_append, List.cons_append, List.singleton_append]
        exact List.mem_cons_of_mem _ (List.mem_cons_self _ _)
      · intro tc i b fl hm
        simp only [List.nil_append, List.cons_append, List.singleton_append,
          List.mem_cons, List.mem_append, List.mem_singleton] at hm
        rcases hm with hm | hm | hm | hm
        · exact absurd hm (by simp)
        · simp only [Cmd.sendStreamData.injEq] at hm
          exact ⟨hm.1, hm.2.1, hm.2.2.1, hm.2.2.2⟩
        · exfalso
          rw [hc₂] at hm
          exact markEndedFun_no_send _ _ _ _ _ _ _ hm
        · exact absurd hm (by simp)
      · refine ⟨s₃, ?_⟩
        rw [hs₃]
        obtain ⟨f', hf', hmsg⟩ := markEndedFun_flow_messages { stream with flow := some { f with messages := f.messages ++ [(from_client, ad.mutateTcp d)] } } from_client none { f with messages := f.messages ++ [(from_client, ad.mutateTcp d)] } rfl
        exact ⟨f', lookup_setStream _ _ _ _ hl, hf', by rw [hmsg]⟩

/-- Forwarding of `DatagramFrameReceived` with a registered peer engine and
a non-ignored flow: the `send_datagram_frame` call carries exactly the
appended message's content after the hook. -/
theorem handle_datagram_spec (ad : Addons) (st : RelayState) (d : Bytes)
    (from_client : Bool) (pe : EngineObs) (f : UDPFlow)
    (hp : (if from_client then st.quicServer else st.quicClient) = some pe)
    (hf : st.flow = some f) :
    ∃ st',
      handle_quic_event ad st (.datagramFrameReceived d) from_client
        = some (st',
            [Cmd.udpMessageHook, Cmd.sendDatagramFrame (!from_client) (ad.mutateUdp d),
             Cmd.quicTransmit (!from_client)])
      ∧ ∃ f', st'.flow = some f'
          ∧ f'.messages = f.messages ++ [(from_client, ad.mutateUdp d)] := by
  simp only [handle_quic_event, hp, handle_datagram_frame, hf]
  exact ⟨_, rfl, _, rfl, rfl⟩

theorem lookup_setStream_ne (l : List (Nat × QuicStream)) (id i : Nat) (s : QuicStream)
    (h : i ≠ id) : (setStream l id s).lookup i = l.lookup i := by
  induction l with
  | nil => simp [setStream]
  | cons e rest ih =>
    obtain ⟨k, v⟩ := e
    simp only [setStream, List.map_cons] at *
    by_cases hk : k = id
    · subst hk
      rw [if_pos rfl]
      have hne : (i == k) = false := by
        simp only [beq_eq_false_iff_ne, ne_eq]
        exact h
      simp only [List.lookup, hne]
      exact ih
    · rw [if_neg hk]
      cases hik : (i == k)
      · simp only [List.lookup, hik]
        exact ih
      · simp only [List.lookup, hik]

/-- `handle_stream_data` with `end_stream = false` on an existing stream:
no ended flag changes, no terminal or error hook fires, and every
`send_stream_data` forwards `end_stream = false`. -/
theorem handle_stream_data_nofin_spec (ad : Addons) (st : RelayState) (fid : Nat)
    (content : Bytes) (from_client : Bool) (stream : QuicStream)
    (hl : st.streamsById.lookup fid = some stream)
    (st' : RelayState) (cmds : List Cmd)
    (h : handle_stream_data ad st fid content false from_client = some (st', cmds)) :
    (∀ i s, st.streamsById.lookup i = some s →
       ∃ s', st'.streamsById.lookup i = some s'
         ∧ s'.endedClient = s.endedClient ∧ s'.endedServer = s.endedServer)
    ∧ Cmd.tcpEndHook ∉ cmds ∧ Cmd.tcpErrorHook ∉ cmds
    ∧ (∀ tc i b fl, Cmd.sendStreamData tc i b fl ∈ cmds → fl = false) := by
  unfold handle_stream_data at h
  simp only [RelayState.get_or_create_stream, hl] at h
  by_cases hend : stream.has_ended from_client = true
  · simp only [hend, if_true, List.nil_append, Option.some.injEq] at h
    obtain ⟨h1, h2⟩ := Prod.ext_iff.mp h.symm
    simp only at h1 h2
    subst h1
    subst h2
    refine ⟨fun i s hi => ⟨s, hi, rfl, rfl⟩, by simp, by simp, by simp⟩
  · simp only [Bool.not_eq_true] at hend
    simp only [hend, Bool.false_eq_true, if_false] at h
    cases hsf : stream.flow with
    | some f =>
      simp only [hsf, Option.some.injEq] at h
      obtain ⟨h1, h2⟩ := Prod.ext_iff.mp h.symm
      simp only at h1 h2
      subst h1
      subst h2
      refine ⟨?_, by simp, by simp, ?_⟩
      · intro i s hi
        by_cases hif : i = fid
        · subst hif
          rw [hi] at hl
          obtain rfl : s = stream := by injection hl
          exact ⟨_, lookup_setStream _ _ _ _ hi, rfl, rfl⟩
        · exact ⟨s, by rw [lookup_setStream_ne _ _ _ _ hif]; exact hi, rfl, rfl⟩
      · intro tc i b fl hm
        simp only [List.nil_append, List.cons_append, List.singleton_append,
          List.mem_cons, List.not_mem_nil, or_false] at hm
        rcases hm with hm | hm | hm
        · exact absurd hm (by simp)
        · simp only [Cmd.sendStreamData.injEq] at hm
          exact hm.2.2.2
        · exact absurd hm (by simp)
    | none =>
      simp only [hsf, Option.some.injEq] at h
      obtain ⟨h1, h2⟩ := Prod.ext_iff.mp h.symm
      simp only at h1 h2
      subst h1
      subst h2
      refine ⟨?_, by simp, by simp, ?_⟩
      · intro i s hi
        by_cases hif : i = fid
        · subst hif
          rw [hi] at hl
          obtain rfl : s = stream := by injection hl
          exact ⟨_, lookup_setStream _ _ _ _ hi, rfl, rfl⟩
        · exact ⟨s, by rw [lookup_setStream_ne _ _ _ _ hif]; exact hi, rfl, rfl⟩
      · intro tc i b fl hm
        simp only [List.nil_append, List.cons_append, List.singleton_append,
          List.mem_cons, List.not_mem_nil, or_false] at hm
        rcases hm with hm | hm
        · simp only [Cmd.sendStreamData.injEq] at hm
          exact hm.2.2.2
        · exact absurd hm (by simp)

theorem markEndedFun_cmds (s : QuicStream) (c : Bool) (e : Option String) :
    ∀ x ∈ (markEndedFun s c e).2, x = Cmd.tcpErrorHook ∨ x = Cmd.tcpEndHook := by
  unfold markEndedFun
  cases c <;>
    simp only [if_true, if_false, Bool.false_eq_true] <;>
    · split
      · simp
      · intro x hx
        split at hx <;> split at hx <;> simp at hx <;> tauto

theorem mark_ended_cmds (s : QuicStream) (c : Bool) (e : Option String)
    (s' : QuicStream) (cmds : List Cmd) (h : s.mark_ended c e = some (s', cmds)) :
    ∀ x ∈ cmds, x = Cmd.tcpErrorHook ∨ x = Cmd.tcpEndHook := by
  have hne := mark_ended_success_has_ended_false s c e s' cmds h
  rw [mark_ended_eq s c e hne] at h
  simp only [Option.some.injEq] at h
  have hc : cmds = (markEndedFun s c e).2 := by rw [h]
  rw [hc]
  exact markEndedFun_cmds s c e

theorem markStreamsClosed_cmds (from_client : Bool) (l l' : List (Nat × QuicStream))
    (cmds : List Cmd) (h : markStreamsClosed from_client l = some (l', cmds)) :
    ∀ x ∈ cmds, x = Cmd.tcpErrorHook ∨ x = Cmd.tcpEndHook := by
  induction l generalizing l' cmds with
  | nil =>
    simp only [markStreamsClosed, Option.some.injEq, Prod.mk.injEq] at h
    rw [← h.2]
    simp
  | cons e rest ih =>
    obtain ⟨sid, s⟩ := e
    unfold markStreamsClosed at h
    split at h
    · cases hrest : markStreamsClosed from_client rest with
      | none => rw [hrest] at h; exact absurd h (by simp)
      | some q =>
        obtain ⟨rest', cmds'⟩ := q
        rw [hrest] at h
        simp only [Option.some.injEq, Prod.mk.injEq] at h
        rw [← h.2]
        exact ih rest' cmds' hrest
    · cases hmk : s.mark_ended from_client (some "Connection closed.") with
      | none => rw [hmk] at h; exact absurd h (by simp)
      | some p =>
        obtain ⟨s', cmds₁⟩ := p
        rw [hmk] at h
        cases hrest : markStreamsClosed from_client rest with
        | none => rw [hrest] at h; exact absurd h (by simp)
        | some q =>
          obtain ⟨rest', cmds₂⟩ := q
          rw [hrest] at h
          simp only [Option.some.injEq, Prod.mk.injEq] at h
          rw [← h.2]
          intro x hx
          rcases List.mem_append.mp hx with hx | hx
          · exact mark_ended_cmds s from_client _ s' cmds₁ hmk x hx
          · exact ih rest' cmds₂ hrest x hx

/-- The `state_done` tail run by `state_ready` on `ConnectionClosed`: it
emits only TCP stream hooks and possibly the terminal UDP hook, and it never
changes the UDP flow's error. -/
theorem state_done_spec (st : RelayState) (from_client : Bool)
    (st' : RelayState) (cmds : List Cmd)
    (h : state_done st (.connectionClosed from_client) = some (st', cmds)) :
    (∀ x ∈ cmds, x = Cmd.tcpErrorHook ∨ x = Cmd.tcpEndHook ∨ x = Cmd.udpEndHook)
    ∧ (∀ f, st.flow = some f → ∃ f', st'.flow = some f' ∧ f'.error = f.error) := by
  simp only [state_done] at h
  cases hms : markStreamsClosed from_client st.streamsById with
  | none => rw [hms] at h; exact absurd h (by simp)
  | some q =>
    obtain ⟨streams, cmds₁⟩ := q
    rw [hms] at h
    simp only at h
    have hcmds₁ := markStreamsClosed_cmds from_client _ streams cmds₁ hms
    cases hfl : st.flow with
    | none =>
      rw [hfl] at h
      simp only [Option.some.injEq, Prod.mk.injEq] at h
      constructor
      · intro x hx
        rw [← h.2] at hx
        rcases hcmds₁ x hx with hh | hh
        · exact Or.inl hh
        · exact Or.inr (Or.inl hh)
      · intro f hff
        exact absurd hff (by simp)
    | some f =>
      rw [hfl] at h
      simp only at h
      by_cases hconn : (!st.clientConnected && !st.serverConnected) = true
      · rw [if_pos hconn] at h
        simp only [Option.some.injEq, Prod.mk.injEq] at h
        constructor
        · intro x hx
          rw [← h.2] at hx
          rcases List.mem_append.mp hx with hx | hx
          · rcases hcmds₁ x hx with hh | hh
            · exact Or.inl hh
            · exact Or.inr (Or.inl hh)
          · right; right
            revert hx
            split <;> simp_all
        · intro f₀ hff
          obtain rfl : f₀ = f := by
            injection hff with hh
            exact hh.symm
          refine ⟨{ messages := f₀.messages, error := f₀.error, live := false }, ?_, rfl⟩
          rw [← h.1]
      · rw [if_neg hconn] at h
        simp only [Option.some.injEq, Prod.mk.injEq] at h
        constructor
        · intro x hx
          rw [← h.2] at hx
          rcases hcmds₁ x hx with hh | hh
          · exact Or.inl hh
          · exact Or.inr (Or.inl hh)
        · intro f₀ hff
          obtain rfl : f₀ = f := by
            injection hff with hh
            exact hh.symm
          rw [← h.1]
          exact ⟨_, rfl, rfl⟩

theorem done_cmds_no_relevant (cmds₃ : List Cmd)
    (hc : ∀ x ∈ cmds₃, x = Cmd.tcpErrorHook ∨ x = Cmd.tcpEndHook ∨ x = Cmd.udpEndHook) :
    (∀ tc, Cmd.closeConnection tc ∉ cmds₃)
      ∧ (∀ a b c d, Cmd.closeQuic a b c d ∉ cmds₃)
      ∧ Cmd.udpErrorHook ∉ cmds₃ := by
  refine ⟨fun tc hx => ?_, fun a b c d hx => ?_, fun hx => ?_⟩ <;>
    rcases hc _ hx with hh | hh | hh <;> simp at hh

/-- Behaviour of the `ConnectionClosed` branch, parameterized by the values
of the two engine references. -/
theorem state_ready_closed_spec (st : RelayState) (from_client : Bool)
    (f : UDPFlow) (st' : RelayState) (cmds : List Cmd)
    (peerv closedv : Option EngineObs)
    (hpq : (if from_client then st.quicServer else st.quicClient) = peerv)
    (hcq : (if from_client then st.quicClient else st.quicServer) = closedv)
    (hf : st.flow = some f)
    (h : state_ready_closed st from_client = some (st', cmds)) :
    (∀ pq ce, peerv = some pq → closedv.bind (fun q => q.closeEvent) = some ce →
      Cmd.closeQuic (!from_client) ce.errorCode ce.frameType ce.reason ∈ cmds
        ∧ Cmd.quicTransmit (!from_client) ∈ cmds
        ∧ (∀ tc, Cmd.closeConnection tc ∉ cmds))
    ∧ ((peerv = none ∨ closedv.bind (fun q => q.closeEvent) = none) →
      Cmd.closeConnection (!from_client) ∈ cmds
        ∧ (∀ a b c d, Cmd.closeQuic a b c d ∉ cmds))
    ∧ ((Cmd.udpErrorHook ∈ cmds) ↔
        ∃ ce, closedv.bind (fun q => q.closeEvent) = some ce
          ∧ is_success_error_code ce.errorCode = false)
    ∧ (∃ f', st'.flow = some f'
        ∧ f'.error = (match closedv.bind (fun q => q.closeEvent) with
            | some ce => if is_success_error_code ce.errorCode then f.error
                else some (if ce.reason == "" then error_code_to_str ce.errorCode
                  else ce.reason)
            | none => f.error)) := by
  simp only [state_ready_closed, hpq, hcq, hf] at h
  cases peerv with
  | none =>
    cases closedv with
    | none =>
      simp only [Option.none_bind] at h ⊢
      split at h
      · exact absurd h (by simp)
      · rename_i st₃ cmds₃ heq
        simp only [Option.some.injEq, Prod.mk.injEq] at h
        obtain ⟨rfl, rfl⟩ := h
        obtain ⟨hcl₃, hfl₃⟩ := state_done_spec _ _ _ _ heq
        obtain ⟨hnoconn, hnoquic, hnoerr⟩ := done_cmds_no_relevant _ hcl₃
        refine ⟨by simp, fun _ => ⟨by simp, ?_⟩, ?_, ?_⟩
        · intro a b c d hx
          rcases List.mem_append.mp hx with hx | hx
          · simp at hx
          · exact hnoquic a b c d hx
        · constructor
          · intro hx
            rcases List.mem_append.mp hx with hx | hx
            · simp at hx
            · exact absurd hx hnoerr
          · rintro ⟨ce, hce, -⟩
            simp at hce
        · obtain ⟨f', hf', herr⟩ := hfl₃ f hf
          exact ⟨f', hf', herr⟩
    | some cq =>
      cases hce : cq.closeEvent with
      | none =>
        simp only [Option.some_bind, hce] at h ⊢
        split at h
        · exact absurd h (by simp)
        · rename_i st₃ cmds₃ heq
          simp only [Option.some.injEq, Prod.mk.injEq] at h
          obtain ⟨rfl, rfl⟩ := h
          obtain ⟨hcl₃, hfl₃⟩ := state_done_spec _ _ _ _ heq
          obtain ⟨hnoconn, hnoquic, hnoerr⟩ := done_cmds_no_relevant _ hcl₃
          refine ⟨by simp, fun _ => ⟨by simp, ?_⟩, ?_, ?_⟩
          · intro a b c d hx
            rcases List.mem_append.mp hx with hx | hx
            · simp at hx
            · exact hnoquic a b c d hx
          · constructor
            · intro hx
              rcases List.mem_append.mp hx with hx | hx
              · simp at hx
              · exact absurd hx hnoerr
            · rintro ⟨ce, hce', -⟩
              simp at hce'
          · obtain ⟨f', hf', herr⟩ := hfl₃ f hf
            exact ⟨f', hf', herr⟩
      | some ce =>
        simp only [Option.some_bind, hce] at h ⊢
        by_cases hsc : is_success_error_code ce.errorCode = true
        · simp only [hsc, Bool.not_true, Bool.false_eq_true, if_false] at h ⊢
          split at h
          · exact absurd h (by simp)
          · rename_i st₃ cmds₃ heq
            simp only [Option.some.injEq, Prod.mk.injEq] at h
            obtain ⟨rfl, rfl⟩ := h
            obtain ⟨hcl₃, hfl₃⟩ := state_done_spec _ _ _ _ heq
            obtain ⟨hnoconn, hnoquic, hnoerr⟩ := done_cmds_no_relevant _ hcl₃
            refine ⟨by simp, fun _ => ⟨by simp, ?_⟩, ?_, ?_⟩
            · intro a b c d hx
              rcases List.mem_append.mp hx with hx | hx
              · simp at hx
              · exact hnoquic a b c d hx
            · constructor
              · intro hx
                rcases List.mem_append.mp hx with hx | hx
                · simp at hx
                · exact absurd hx hnoerr
              · rintro ⟨ce', hce', hbad⟩
                obtain rfl : ce' = ce := by
                  injection hce' with hh
                  exact hh.symm
                rw [hsc] at hbad
                exact absurd hbad (by simp)
            · obtain ⟨f', hf', herr⟩ := hfl₃ f hf
              refine ⟨f', hf', ?_⟩
              rw [herr]
              simp
        · simp only [Bool.not_eq_true] at hsc
          simp only [hsc, Bool.not_false, if_true] at h ⊢
          split at h
          · exact absurd h (by simp)
          · rename_i st₃ cmds₃ heq
            simp only [Option.some.injEq, Prod.mk.injEq] at h
            obtain ⟨rfl, rfl⟩ := h
            obtain ⟨hcl₃, hfl₃⟩ := state_done_spec _ _ _ _ heq
            obtain ⟨hnoconn, hnoquic, hnoerr⟩ := done_cmds_no_relevant _ hcl₃
            refine ⟨by simp, fun _ => ⟨by simp, ?_⟩, ?_, ?_⟩
            · intro a b c d hx
              rcases List.mem_append.mp hx with hx | hx
              · simp at hx
              · exact hnoquic a b c d hx
            · constructor
              · intro _
                exact ⟨ce, rfl, hsc⟩
              · intro _
                simp
            · obtain ⟨f', hf', herr⟩ := hfl₃
                { messages := f.messages, error := some (if ce.reason == ""
                    then error_code_to_str ce.errorCode else ce.reason), live := f.live }
                rfl
              refine ⟨f', hf', ?_⟩
              rw [herr]
              simp [hsc]
  | some pq =>
    cases closedv with
    | none =>
      simp only [Option.none_bind] at h ⊢
      split at h
      · exact absurd h (by simp)
      · rename_i st₃ cmds₃ heq
        simp only [Option.some.injEq, Prod.mk.injEq] at h
        obtain ⟨rfl, rfl⟩ := h
        obtain ⟨hcl₃, hfl₃⟩ := state_done_spec _ _ _ _ heq
        obtain ⟨hnoconn, hnoquic, hnoerr⟩ := done_cmds_no_relevant _ hcl₃
        refine ⟨?_, fun _ => ⟨by simp, ?_⟩, ?_, ?_⟩
        · intro pq' ce' _ hce'
          simp at hce'
        · intro a b c d hx
          rcases List.mem_append.mp hx with hx | hx
          · simp at hx
          · exact hnoquic a b c d hx
        · constructor
          · intro hx
            rcases List.mem_append.mp hx with hx | hx
            · simp at hx
            · exact absurd hx hnoerr
          · rintro ⟨ce, hce, -⟩
            simp at hce
        · obtain ⟨f', hf', herr⟩ := hfl₃ f hf
          exact ⟨f', hf', herr⟩
    | some cq =>
      cases hce : cq.closeEvent with
      | none =>
        simp only [Option.some_bind, hce] at h ⊢
        split at h
        · exact absurd h (by simp)
        · rename_i st₃ cmds₃ heq
          simp only [Option.some.injEq, Prod.mk.injEq] at h
          obtain ⟨rfl, rfl⟩ := h
          obtain ⟨hcl₃, hfl₃⟩ := state_done_spec _ _ _ _ heq
          obtain ⟨hnoconn, hnoquic, hnoerr⟩ := done_cmds_no_relevant _ hcl₃
          refine ⟨?_, fun _ => ⟨by simp, ?_⟩, ?_, ?_⟩
          · intro pq' ce' _ hce'
            simp at hce'
          · intro a b c d hx
            rcases List.mem_append.mp hx with hx | hx
            · simp at hx
            · exact hnoquic a b c d hx
          · constructor
            · intro hx
              rcases List.mem_append.mp hx with hx | hx
              · simp at hx
              · exact absurd hx hnoerr
            · rintro ⟨ce', hce', -⟩
              simp at hce'
          · obtain ⟨f', hf', herr⟩ := hfl₃ f hf
            exact ⟨f', hf', herr⟩
      | some ce =>
        simp only [Option.some_bind, hce] at h ⊢
        by_cases hsc : is_success_error_code ce.errorCode = true
        · simp only [hsc, Bool.not_true, Bool.false_eq_true, if_false] at h ⊢
          split at h
          · exact absurd h (by simp)
          · rename_i st₃ cmds₃ heq
            simp only [Option.some.injEq, Prod.mk.injEq] at h
            obtain ⟨rfl, rfl⟩ := h
            obtain ⟨hcl₃, hfl₃⟩ := state_done_spec _ _ _ _ heq
            obtain ⟨hnoconn, hnoquic, hnoerr⟩ := done_cmds_no_relevant _ hcl₃
            refine ⟨?_, ?_, ?_, ?_⟩
            · intro pq' ce' _ hce'
              obtain rfl : ce' = ce := by
                injection hce' with hh
                exact hh.symm
              refine ⟨by simp, by simp, ?_⟩
              intro tc hx
              rcases List.mem_append.mp hx with hx | hx
              · simp at hx
              · exact hnoconn tc hx
            · rintro (hx | hx) <;> simp at hx
            · constructor
              · intro hx
                rcases List.mem_append.mp hx with hx | hx
                · simp at hx
                · exact absurd hx hnoerr
              · rintro ⟨ce', hce', hbad⟩
                obtain rfl : ce' = ce := by
                  injection hce' with hh
                  exact hh.symm
                rw [hsc] at hbad
                exact absurd hbad (by simp)
            · obtain ⟨f', hf', herr⟩ := hfl₃ f hf
              refine ⟨f', hf', ?_⟩
              rw [herr]
              simp
        · simp only [Bool.not_eq_true] at hsc
          simp only [hsc, Bool.not_false, if_true] at h ⊢
          split at h
          · exact absurd h (by simp)
          · rename_i st₃ cmds₃ heq
            simp only [Option.some.injEq, Prod.mk.injEq] at h
            obtain ⟨rfl, rfl⟩ := h
            obtain ⟨hcl₃, hfl₃⟩ := state_done_spec _ _ _ _ heq
            obtain ⟨hnoconn, hnoquic, hnoerr⟩ := done_cmds_no_relevant _ hcl₃
            refine ⟨?_, ?_, ?_, ?_⟩
            · intro pq' ce' _ hce'
              obtain rfl : ce' = ce := by
                injection hce' with hh
                exact hh.symm
              refine ⟨by simp, by simp, ?_⟩
              intro tc hx
              rcases List.mem_append.mp hx with hx | hx
              · simp at hx
              · exact hnoconn tc hx
            · rintro (hx | hx) <;> simp at hx
            · exact ⟨fun _ => ⟨ce, rfl, hsc⟩, fun _ => by simp⟩
            · obtain ⟨f', hf', herr⟩ := hfl₃
                { messages := f.messages, error := some (if ce.reason == ""
                    then error_code_to_str ce.errorCode else ce.reason), live := f.live }
                rfl
              refine ⟨f', hf', ?_⟩
              rw [herr]
              simp [hsc]

/-- Spec-side single-event handler of the `process_events` drain loop; the
`Bool` result tells whether the drain stops after this event. -/
def handleOne (st : QuicLayerState) : QuicEvent → Option (QuicLayerState × List Cmd × Bool)
  | .connectionIdIssued _ => some (st, [], false)
  | .connectionIdRetired _ => some (st, [], false)
  | .connectionTerminated code _ reason =>
    match handle_connection_terminated st code reason with
    | none => none
    | some (st, cmds) =>
      some (st, cmds ++
        (if st.conn.connected then [Cmd.closeConnection st.isClientConn] else []), true)
  | .handshakeCompleted _ _ _ =>
    match handle_handshake_completed st with
    | none => none
    | some (st, cmds) => some (st, cmds ++ [Cmd.toChildQuicStart], false)
  | .pingAcknowledged => some (st, [], false)
  | .protocolNegotiated => some (st, [], false)
  | e =>
    if !st.conn.tlsEstablished then none
    else some (st, [Cmd.toChildQuicConnectionEvent e], false)

/-- The drain loop consumes the queue one event at a time, in arrival
order: it agrees with sequential composition of `handleOne`. -/
theorem drainEvents_cons (st : QuicLayerState) (e : QuicEvent) (rest : List QuicEvent) :
    drainEvents st (e :: rest)
      = match handleOne st e with
        | none => none
        | some (st₁, cmds₁, true) => some (st₁, cmds₁)
        | some (st₁, cmds₁, false) =>
          match drainEvents st₁ rest with
          | none => none
          | some (st₂, cmds₂) => some (st₂, cmds₁ ++ cmds₂) := by
  cases e with
  | connectionIdIssued cid =>
    simp only [drainEvents, handleOne]
    cases hd : drainEvents st rest with
    | none => rfl
    | some p => obtain ⟨st₂, cmds₂⟩ := p; simp
  | connectionIdRetired cid =>
    simp only [drainEvents, handleOne]
    cases hd : drainEvents st rest with
    | none => rfl
    | some p => obtain ⟨st₂, cmds₂⟩ := p; simp
  | pingAcknowledged =>
    simp only [drainEvents, handleOne]
    cases hd : drainEvents st rest with
    | none => rfl
    | some p => obtain ⟨st₂, cmds₂⟩ := p; simp
  | protocolNegotiated =>
    simp only [drainEvents, handleOne]
    cases hd : drainEvents st rest with
    | none => rfl
    | some p => obtain ⟨st₂, cmds₂⟩ := p; simp
  | connectionTerminated code ft reason =>
    simp only [drainEvents, handleOne]
    cases hct : handle_connection_terminated st code reason with
    | none => rfl
    | some p => obtain ⟨st₁, cmds₁⟩ := p; rfl
  | handshakeCompleted a ed res =>
    simp only [drainEvents, handleOne]
    cases hhc : handle_handshake_completed st with
    | none => rfl
    | some p =>
      obtain ⟨st₁, cmds₁⟩ := p
      rfl
  | datagramFrameReceived d =>
    simp only [drainEvents, handleOne]
    by_cases htls : st.conn.tlsEstablished = true
    · simp only [htls, Bool.not_true, Bool.false_eq_true, if_false]
      cases hd : drainEvents st rest with
      | none => rfl
      | some p => obtain ⟨st₂, cmds₂⟩ := p; rfl
    · simp only [Bool.not_eq_true] at htls
      simp only [htls, Bool.not_false, if_true]
  | streamDataReceived sid d fin =>
    simp only [drainEvents, handleOne]
    by_cases htls : st.conn.tlsEstablished = true
    · simp only [htls, Bool.not_true, Bool.false_eq_true, if_false]
      cases hd : drainEvents st rest with
      | none => rfl
      | some p => obtain ⟨st₂, cmds₂⟩ := p; rfl
    · simp only [Bool.not_eq_true] at htls
      simp only [htls, Bool.not_false, if_true]
  | streamReset sid code =>
    simp only [drainEvents, handleOne]
    by_cases htls : st.conn.tlsEstablished = true
    · simp only [htls, Bool.not_true, Bool.false_eq_true, if_false]
      cases hd : drainEvents st rest with
      | none => rfl
      | some p => obtain ⟨st₂, cmds₂⟩ := p; rfl
    · simp only [Bool.not_eq_true] at htls
      simp only [htls, Bool.not_false, if_true]

/-- A `ConnectionTerminated` stops the drain: whatever follows it in the
queue is irrelevant to the result. -/
theorem drainEvents_stops (st : QuicLayerState) (pre : List QuicEvent)
    (code : Nat) (ft : Option Nat) (r : String) (post post' : List QuicEvent) :
    drainEvents st (pre ++ .connectionTerminated code ft r :: post)
      = drainEvents st (pre ++ .connectionTerminated code ft r :: post') := by
  induction pre generalizing st with
  | nil => rfl
  | cons e pre ih =>
    simp only [List.cons_append]
    rw [drainEvents_cons, drainEvents_cons]
    cases handleOne st e with
    | none => rfl
    | some p =>
      obtain ⟨st₁, cmds₁, stop⟩ := p
      cases stop
      · simp only
        rw [ih st₁]
      · rfl

/-- Only a `ConnectionTerminated` event makes `handleOne` stop the drain. -/
theorem handleOne_stop (st : QuicLayerState) (e : QuicEvent) (st₁ : QuicLayerState)
    (cmds₁ : List Cmd) (h : handleOne st e = some (st₁, cmds₁, true)) :
    ∃ code ft r, e = .connectionTerminated code ft r := by
  cases e with
  | connectionTerminated code ft r => exact ⟨code, ft, r, rfl⟩
  | connectionIdIssued cid => simp [handleOne] at h
  | connectionIdRetired cid => simp [handleOne] at h
  | pingAcknowledged => simp [handleOne] at h
  | protocolNegotiated => simp [handleOne] at h
  | handshakeCompleted a b c =>
    simp only [handleOne] at h
    cases hhc : handle_handshake_completed st with
    | none => rw [hhc] at h; simp at h
    | some p =>
      obtain ⟨x, y⟩ := p
      rw [hhc] at h
      simp at h
  | datagramFrameReceived d =>
    simp only [handleOne] at h
    split at h <;> simp at h
  | streamDataReceived sid d fin =>
    simp only [handleOne] at h
    split at h <;> simp at h
  | streamReset sid code =>
    simp only [handleOne] at h
    split at h <;> simp at h

/-- A drain over a queue without `ConnectionTerminated` ends in `transmit`. -/
theorem drainEvents_transmits (st : QuicLayerState) (evs : List QuicEvent)
    (hno : ∀ code ft r, QuicEvent.connectionTerminated code ft r ∉ evs)
    (st' : QuicLayerState) (cmds : List Cmd)
    (h : drainEvents st evs = some (st', cmds)) :
    ∃ st₁ cmds₁ tcmds, transmit st₁ = some (st', tcmds) ∧ cmds = cmds₁ ++ tcmds := by
  induction evs generalizing st cmds with
  | nil =>
    exact ⟨st, [], cmds, h, by simp⟩
  | cons e rest ih =>
    rw [drainEvents_cons] at h
    cases hone : handleOne st e with
    | none => rw [hone] at h; exact absurd h (by simp)
    | some p =>
      obtain ⟨st₁, cmds₁, stop⟩ := p
      cases stop
      · rw [hone] at h
        simp only at h
        cases hd : drainEvents st₁ rest with
        | none => rw [hd] at h; exact absurd h (by simp)
        | some q =>
          obtain ⟨st₂, cmds₂⟩ := q
          rw [hd] at h
          simp only [Option.some.injEq, Prod.mk.injEq] at h
          obtain ⟨rfl, rfl⟩ := h
          obtain ⟨st₃, cmds₃, tcmds, ht, hc⟩ := ih st₁
            (fun code ft r hm => hno code ft r (List.mem_cons_of_mem _ hm)) cmds₂ hd
          exact ⟨st₃, cmds₁ ++ cmds₃, tcmds, ht, by rw [hc, List.append_assoc]⟩
      · exfalso
        obtain ⟨code, ft, r, rfl⟩ := handleOne_stop st e st₁ cmds₁ hone
        exact hno code ft r (List.mem_cons_self _ _)

theorem route_datagram_ne_wakeup (st : QuicLayerState) (p : Bytes × Nat)
    (tok : Nat) (d : Rat) : route_datagram st p ≠ Cmd.requestWakeup tok d := by
  unfold route_datagram
  split
  · simp
  · split <;> simp

/-- Explicit description of `transmit`'s effect on the wakeup registry. -/
theorem transmit_spec (st : QuicLayerState) (q : EngineState)
    (st' : QuicLayerState) (cmds : List Cmd)
    (hq : st.quic = some q) (h : transmit st = some (st', cmds)) :
    (st.wakeups.any (fun e => decide (e.2 ≤ q.timer)) = true →
      st'.wakeups = st.wakeups ∧ st'.nextToken = st.nextToken
        ∧ cmds = q.datagramsToSend.map (route_datagram st))
    ∧ (st.wakeups.any (fun e => decide (e.2 ≤ q.timer)) = false →
      st'.wakeups = st.wakeups ++ [(st.nextToken, q.timer)]
        ∧ st'.nextToken = st.nextToken + 1
        ∧ cmds = q.datagramsToSend.map (route_datagram st)
            ++ [Cmd.requestWakeup st.nextToken (q.timer - st.now)]) := by
  unfold transmit at h
  rw [hq] at h
  simp only at h
  by_cases hany : st.wakeups.any (fun e => decide (e.2 ≤ q.timer)) = true
  · rw [if_pos hany] at h
    simp only [Option.some.injEq, Prod.mk.injEq] at h
    obtain ⟨rfl, rfl⟩ := h
    refine ⟨fun _ => ⟨rfl, rfl, rfl⟩, fun hc => ?_⟩
    rw [hany] at hc
    exact absurd hc (by simp)
  · rw [if_neg hany] at h
    simp only [Option.some.injEq, Prod.mk.injEq] at h
    obtain ⟨rfl, rfl⟩ := h
    simp only [Bool.not_eq_true] at hany
    refine ⟨fun hc => ?_, fun _ => ⟨rfl, rfl, rfl⟩⟩
    rw [hany] at hc
    exact absurd hc (by simp)

theorem transmit_wakeups_mono (st : QuicLayerState) (st' : QuicLayerState)
    (cmds : List Cmd) (h : transmit st = some (st', cmds)) :
    st.nextToken ≤ st'.nextToken
      ∧ ∀ p ∈ st'.wakeups, p ∈ st.wakeups ∨ st.nextToken ≤ p.1 := by
  cases hq : st.quic with
  | none => unfold transmit at h; rw [hq] at h; exact absurd h (by simp)
  | some q =>
    obtain ⟨h₁, h₂⟩ := transmit_spec st q st' cmds hq h
    by_cases hany : st.wakeups.any (fun e => decide (e.2 ≤ q.timer)) = true
    · obtain ⟨hw, hn, -⟩ := h₁ hany
      rw [hw, hn]
      exact ⟨le_refl _, fun p hp => Or.inl hp⟩
    · simp only [Bool.not_eq_true] at hany
      obtain ⟨hw, hn, -⟩ := h₂ hany
      rw [hw, hn]
      refine ⟨Nat.le_succ _, fun p hp => ?_⟩
      rcases List.mem_append.mp hp with hp | hp
      · exact Or.inl hp
      · right
        simp only [List.mem_singleton] at hp
        rw [hp]

theorem hct_wakeups (st : QuicLayerState) (code : Nat) (reason : String)
    (st' : QuicLayerState) (cmds : List Cmd)
    (h : handle_connection_terminated st code reason = some (st', cmds)) :
    st'.wakeups = st.wakeups ∧ st'.nextToken = st.nextToken := by
  unfold handle_connection_terminated at h
  cases hq : st.quic with
  | none => rw [hq] at h; exact absurd h (by simp)
  | some q =>
    rw [hq] at h
    by_cases h₁ : st.tlsSet = true
    · by_cases h₂ : q.stateTerminated = true
      · by_cases htls : st.conn.tlsEstablished = true
        · simp only [h₁, h₂, htls, Bool.not_true, Bool.false_eq_true, if_false,
            Option.some.injEq, Prod.mk.injEq] at h
          obtain ⟨h1, -⟩ := h
          rw [← h1]
          exact ⟨rfl, rfl⟩
        · simp only [Bool.not_eq_true] at htls
          simp only [h₁, h₂, htls, Bool.not_true, Bool.not_false, Bool.false_eq_true,
            if_false, if_true, Option.some.injEq, Prod.mk.injEq] at h
          obtain ⟨h1, -⟩ := h
          rw [← h1]
          exact ⟨rfl, rfl⟩
      · simp only [Bool.not_eq_true] at h₂
        simp [h₁, h₂] at h
    · simp only [Bool.not_eq_true] at h₁
      simp [h₁] at h

theorem hhc_wakeups (st : QuicLayerState) (st' : QuicLayerState) (cmds : List Cmd)
    (h : handle_handshake_completed st = some (st', cmds)) :
    st'.wakeups = st.wakeups ∧ st'.nextToken = st.nextToken := by
  unfold handle_handshake_completed at h
  cases hq : st.quic with
  | none => rw [hq] at h; exact absurd h (by simp)
  | some q =>
    rw [hq] at h
    by_cases h₁ : st.tlsSet = true
    · by_cases h₂ : st.conn.tlsEstablished = true
      · simp [h₁, h₂] at h
      · simp only [Bool.not_eq_true] at h₂
        simp only [h₁, h₂, Bool.not_true, Bool.not_false, Bool.false_eq_true,
          if_false, if_true, Option.some.injEq, Prod.mk.injEq] at h
        obtain ⟨h1, -⟩ := h
        rw [← h1]
        exact ⟨rfl, rfl⟩
    · simp only [Bool.not_eq_true] at h₁
      simp [h₁] at h

theorem handleOne_wakeups (st : QuicLayerState) (e : QuicEvent)
    (st₁ : QuicLayerState) (cmds : List Cmd) (b : Bool)
    (h : handleOne st e = some (st₁, cmds, b)) :
    st₁.wakeups = st.wakeups ∧ st₁.nextToken = st.nextToken := by
  cases e <;> simp only [handleOne] at h
  case connectionIdIssued =>
    simp only [Option.some.injEq, Prod.mk.injEq] at h
    obtain ⟨rfl, -, -⟩ := h
    exact ⟨rfl, rfl⟩
  case connectionIdRetired =>
    simp only [Option.some.injEq, Prod.mk.injEq] at h
    obtain ⟨rfl, -, -⟩ := h
    exact ⟨rfl, rfl⟩
  case pingAcknowledged =>
    simp only [Option.some.injEq, Prod.mk.injEq] at h
    obtain ⟨rfl, -, -⟩ := h
    exact ⟨rfl, rfl⟩
  case protocolNegotiated =>
    simp only [Option.some.injEq, Prod.mk.injEq] at h
    obtain ⟨rfl, -, -⟩ := h
    exact ⟨rfl, rfl⟩
  case connectionTerminated code ft reason =>
    cases hct : handle_connection_terminated st code reason with
    | none => rw [hct] at h; exact absurd h (by simp)
    | some p =>
      obtain ⟨st₂, cmds₂⟩ := p
      rw [hct] at h
      simp only [Option.some.injEq, Prod.mk.injEq] at h
      obtain ⟨rfl, -, -⟩ := h
      exact hct_wakeups st code reason st₂ cmds₂ hct
  case handshakeCompleted a b c =>
    cases hhc : handle_handshake_completed st with
    | none => rw [hhc] at h; exact absurd h (by simp)
    | some p =>
      obtain ⟨st₂, cmds₂⟩ := p
      rw [hhc] at h
      simp only [Option.some.injEq, Prod.mk.injEq] at h
      obtain ⟨rfl, -, -⟩ := h
      exact hhc_wakeups st st₂ cmds₂ hhc
  case datagramFrameReceived d =>
    split at h
    · exact absurd h (by simp)
    · simp only [Option.some.injEq, Prod.mk.injEq] at h
      obtain ⟨rfl, -, -⟩ := h
      exact ⟨rfl, rfl⟩
  case streamDataReceived sid d fin =>
    split at h
    · exact absurd h (by simp)
    · simp only [Option.some.injEq, Prod.mk.injEq] at h
      obtain ⟨rfl, -, -⟩ := h
      exact ⟨rfl, rfl⟩
  case streamReset sid code =>
    split at h
    · exact absurd h (by simp)
    · simp only [Option.some.injEq, Prod.mk.injEq] at h
      obtain ⟨rfl, -, -⟩ := h
      exact ⟨rfl, rfl⟩

theorem drainEvents_wakeups_mono (evs : List QuicEvent) (st : QuicLayerState)
    (st' : QuicLayerState) (cmds : List Cmd)
    (h : drainEvents st evs = some (st', cmds)) :
    st.nextToken ≤ st'.nextToken
      ∧ ∀ p ∈ st'.wakeups, p ∈ st.wakeups ∨ st.nextToken ≤ p.1 := by
  induction evs generalizing st cmds with
  | nil => exact transmit_wakeups_mono st st' cmds h
  | cons e rest ih =>
    rw [drainEvents_cons] at h
    cases hone : handleOne st e with
    | none => rw [hone] at h; exact absurd h (by simp)
    | some p =>
      obtain ⟨st₁, cmds₁, stop⟩ := p
      obtain ⟨hw₁, hn₁⟩ := handleOne_wakeups st e st₁ cmds₁ stop hone
      rw [hone] at h
      cases stop
      · simp only at h
        cases hd : drainEvents st₁ rest with
        | none => rw [hd] at h; exact absurd h (by simp)
        | some q =>
          obtain ⟨st₂, cmds₂⟩ := q
          rw [hd] at h
          simp only [Option.some.injEq, Prod.mk.injEq] at h
          obtain ⟨rfl, -⟩ := h
          obtain ⟨hm, hp⟩ := ih st₁ cmds₂ hd
          rw [hw₁, hn₁] at hp
          rw [hn₁] at hm
          exact ⟨hm, hp⟩
      · simp only [Option.some.injEq, Prod.mk.injEq] at h
        obtain ⟨rfl, -⟩ := h
        rw [hw₁, hn₁]
        exact ⟨le_of_eq rfl, fun p hp => Or.inl hp⟩

theorem process_events_wakeups_mono (st : QuicLayerState)
    (st' : QuicLayerState) (cmds : List Cmd)
    (h : process_events st = some (st', cmds)) :
    st.nextToken ≤ st'.nextToken
      ∧ ∀ p ∈ st'.wakeups, p ∈ st.wakeups ∨ st.nextToken ≤ p.1 := by
  cases hq : st.quic with
  | none =>
    simp only [process_events, hq] at h
    exact absurd h (by simp)
  | some q =>
    simp only [process_events, hq] at h
    exact drainEvents_wakeups_mono q.events
      { st with quic := some { q with events := [] } } st' cmds h

theorem lookup_mem {α β : Type} [BEq α] [LawfulBEq α] (l : List (α × β)) (a : α) (b : β)
    (h : l.lookup a = some b) : (a, b) ∈ l := by
  induction l with
  | nil => simp [List.lookup] at h
  | cons e rest ih =>
    obtain ⟨k, v⟩ := e
    by_cases hk : a == k
    · simp only [List.lookup, hk] at h
      obtain rfl : v = b := by injection h
      obtain rfl : a = k := eq_of_beq hk
      exact List.mem_cons_self _ _
    · simp only [Bool.not_eq_true] at hk
      simp only [List.lookup, hk] at h
      exact List.mem_cons_of_mem _ (ih h)

theorem route_datagram_ne_completed (st : QuicLayerState) (p : Bytes × Nat)
    (e : Option String) : route_datagram st p ≠ Cmd.toChildOpenConnectionCompleted e := by
  unfold route_datagram
  split
  · simp
  · split <;> simp

theorem transmit_no_completed (st : QuicLayerState) (st' : QuicLayerState)
    (cmds : List Cmd) (h : transmit st = some (st', cmds)) :
    ∀ e, Cmd.toChildOpenConnectionCompleted e ∉ cmds := by
  cases hq : st.quic with
  | none => unfold transmit at h; rw [hq] at h; exact absurd h (by simp)
  | some q =>
    obtain ⟨h₁, h₂⟩ := transmit_spec st q st' cmds hq h
    by_cases hany : st.wakeups.any (fun e => decide (e.2 ≤ q.timer)) = true
    · obtain ⟨-, -, hc⟩ := h₁ hany
      rw [hc]
      intro e hm
      obtain ⟨p, -, hpe⟩ := List.mem_map.mp hm
      exact route_datagram_ne_completed st p e hpe
    · simp only [Bool.not_eq_true] at hany
      obtain ⟨-, -, hc⟩ := h₂ hany
      rw [hc]
      intro e hm
      rcases List.mem_append.mp hm with hm | hm
      · obtain ⟨p, -, hpe⟩ := List.mem_map.mp hm
        exact route_datagram_ne_completed st p e hpe
      · simp at hm

theorem hct_no_completed (st : QuicLayerState) (code : Nat) (reason : String)
    (st' : QuicLayerState) (cmds : List Cmd)
    (h : handle_connection_terminated st code reason = some (st', cmds)) :
    ∀ e, Cmd.toChildOpenConnectionCompleted e ∉ cmds := by
  unfold handle_connection_terminated at h
  cases hq : st.quic with
  | none => rw [hq] at h; exact absurd h (by simp)
  | some q =>
    rw [hq] at h
    by_cases h₁ : st.tlsSet = true
    · by_cases h₂ : q.stateTerminated = true
      · by_cases htls : st.conn.tlsEstablished = true
        · simp only [h₁, h₂, htls, Bool.not_true, Bool.false_eq_true, if_false,
            Option.some.injEq, Prod.mk.injEq] at h
          intro e hm
          rw [← h.2] at hm
          simp at hm
        · simp only [Bool.not_eq_true] at htls
          simp only [h₁, h₂, htls, Bool.not_true, Bool.not_false, Bool.false_eq_true,
            if_false, if_true, Option.some.injEq, Prod.mk.injEq] at h
          intro e hm
          rw [← h.2] at hm
          rcases List.mem_append.mp hm with hm | hm
          · revert hm
            split <;> simp
          · simp at hm
      · simp only [Bool.not_eq_true] at h₂
        simp [h₁, h₂] at h
    · simp only [Bool.not_eq_true] at h₁
      simp [h₁] at h

theorem hhc_no_completed (st : QuicLayerState) (st' : QuicLayerState)
    (cmds : List Cmd) (h : handle_handshake_completed st = some (st', cmds)) :
    ∀ e, Cmd.toChildOpenConnectionCompleted e ∉ cmds := by
  unfold handle_handshake_completed at h
  cases hq : st.quic with
  | none => rw [hq] at h; exact absurd h (by simp)
  | some q =>
    rw [hq] at h
    by_cases h₁ : st.tlsSet = true
    · by_cases h₂ : st.conn.tlsEstablished = true
      · simp [h₁, h₂] at h
      · simp only [Bool.not_eq_true] at h₂
        simp only [h₁, h₂, Bool.not_true, Bool.not_false, Bool.false_eq_true,
          if_false, if_true, Option.some.injEq, Prod.mk.injEq] at h
        intro e hm
        rw [← h.2] at hm
        rcases List.mem_cons.mp hm with hm | hm
        · revert hm
          split <;> simp
        · simp at hm
    · simp only [Bool.not_eq_true] at h₁
      simp [h₁] at h

theorem handleOne_no_completed (st : QuicLayerState) (ev : QuicEvent)
    (st₁ : QuicLayerState) (cmds : List Cmd) (b : Bool)
    (h : handleOne st ev = some (st₁, cmds, b)) :
    ∀ e, Cmd.toChildOpenConnectionCompleted e ∉ cmds := by
  cases ev <;> simp only [handleOne] at h
  case connectionIdIssued =>
    simp only [Option.some.injEq, Prod.mk.injEq] at h
    intro e hm
    rw [← h.2.1] at hm
    simp at hm
  case connectionIdRetired =>
    simp only [Option.some.injEq, Prod.mk.injEq] at h
    intro e hm
    rw [← h.2.1] at hm
    simp at hm
  case pingAcknowledged =>
    simp only [Option.some.injEq, Prod.mk.injEq] at h
    intro e hm
    rw [← h.2.1] at hm
    simp at hm
  case protocolNegotiated =>
    simp only [Option.some.injEq, Prod.mk.injEq] at h
    intro e hm
    rw [← h.2.1] at hm
    simp at hm
  case connectionTerminated code ft reason =>
    cases hct : handle_connection_terminated st code reason with
    | none => rw [hct] at h; exact absurd h (by simp)
    | some p =>
      obtain ⟨st₂, cmds₂⟩ := p
      rw [hct] at h
      simp only [Option.some.injEq, Prod.mk.injEq] at h
      intro e hm
      rw [← h.2.1] at hm
      rcases List.mem_append.mp hm with hm | hm
      · exact hct_no_completed st code reason st₂ cmds₂ hct e hm
      · revert hm
        split <;> simp
  case handshakeCompleted a b' c =>
    cases hhc : handle_handshake_completed st with
    | none => rw [hhc] at h; exact absurd h (by simp)
    | some p =>
      obtain ⟨st₂, cmds₂⟩ := p
      rw [hhc] at h
      simp only [Option.some.injEq, Prod.mk.injEq] at h
      intro e hm
      rw [← h.2.1] at hm
      rcases List.mem_append.mp hm with hm | hm
      · exact hhc_no_completed st st₂ cmds₂ hhc e hm
      · simp at hm
  case datagramFrameReceived d =>
    split at h
    · exact absurd h (by simp)
    · simp only [Option.some.injEq, Prod.mk.injEq] at h
      intro e hm
      rw [← h.2.1] at hm
      simp at hm
  case streamDataReceived sid d fin =>
    split at h
    · exact absurd h (by simp)
    · simp only [Option.some.injEq, Prod.mk.injEq] at h
      intro e hm
      rw [← h.2.1] at hm
      simp at hm
  case streamReset sid code =>
    split at h
    · exact absurd h (by simp)
    · simp only [Option.some.injEq, Prod.mk.injEq] at h
      intro e hm
      rw [← h.2.1] at hm
      simp at hm

theorem drainEvents_no_completed (evs : List QuicEvent) (st : QuicLayerState)
    (st' : QuicLayerState) (cmds : List Cmd)
    (h : drainEvents st evs = some (st', cmds)) :
    ∀ e, Cmd.toChildOpenConnectionCompleted e ∉ cmds := by
  induction evs generalizing st cmds with
  | nil => exact transmit_no_completed st st' cmds h
  | cons ev rest ih =>
    rw [drainEvents_cons] at h
    cases hone : handleOne st ev with
    | none => rw [hone] at h; exact absurd h (by simp)
    | some p =>
      obtain ⟨st₁, cmds₁, stop⟩ := p
      rw [hone] at h
      cases stop
      · simp only at h
        cases hd : drainEvents st₁ rest with
        | none => rw [hd] at h; exact absurd h (by simp)
        | some q =>
          obtain ⟨st₂, cmds₂⟩ := q
          rw [hd] at h
          simp only [Option.some.injEq, Prod.mk.injEq] at h
          obtain ⟨rfl, h2⟩ := h
          intro e hm
          rw [← h2] at hm
          rcases List.mem_append.mp hm with hm | hm
          · exact handleOne_no_completed st ev st₁ cmds₁ false hone e hm
          · exact ih st₁ cmds₂ hd e hm
      · simp only [Option.some.injEq, Prod.mk.injEq] at h
        intro e hm
        rw [← h.2] at hm
        exact handleOne_no_completed st ev st₁ cmds₁ true hone e hm

theorem process_events_no_completed (st : QuicLayerState)
    (st' : QuicLayerState) (cmds : List Cmd)
    (h : process_events st = some (st', cmds)) :
    ∀ e, Cmd.toChildOpenConnectionCompleted e ∉ cmds := by
  cases hq : st.quic with
  | none =>
    simp only [process_events, hq] at h
    exact absurd h (by simp)
  | some q =>
    simp only [process_events, hq] at h
    exact drainEvents_no_completed q.events
      { st with quic := some { q with events := [] } } st' cmds h

/-! ## Claim theorems -/

/-- C3: for every `DatagramFrameReceived` or `StreamDataReceived` dispatched
by the relay with both engines registered and a non-ignored flow, the bytes
passed to the peer engine (`send_datagram_frame` / `send_stream_data`) are
exactly the appended message's content as read back after the message hook
returns (the hook's mutation `ad.mutateTcp`/`ad.mutateUdp` of the original
bytes), and the `end_stream` flag is forwarded unchanged; in particular an
unmodified `StreamDataReceived` yields the original bytes and flag at the
peer engine. -/
theorem C3_relay_exact_bytes :
    (∀ (ad : Addons) (st : RelayState) (sid : Nat) (d : Bytes)
       (fin from_client : Bool) (ec es : EngineObs) (stream : QuicStream) (f : TCPFlow),
      st.quicClient = some ec → st.quicServer = some es →
      st.streamsById.lookup sid = some stream → stream.flow = some f →
      stream.has_ended from_client = false →
      ∃ st' cmds,
        handle_quic_event ad st (.streamDataReceived sid d fin) from_client = some (st', cmds)
        ∧ Cmd.sendStreamData (!from_client) stream.streamId (ad.mutateTcp d) fin ∈ cmds
        ∧ (∀ tc i b fl, Cmd.sendStreamData tc i b fl ∈ cmds →
             tc = !from_client ∧ i = stream.streamId ∧ b = ad.mutateTcp d ∧ fl = fin)
        ∧ ∃ stream' f', st'.streamsById.lookup sid = some stream'
            ∧ stream'.flow = some f'
            ∧ f'.messages = f.messages ++ [(from_client, ad.mutateTcp d)])
    ∧ (∀ (ad : Addons) (st : RelayState) (d : Bytes) (from_client : Bool)
       (ec es : EngineObs) (f : UDPFlow),
      st.quicClient = some ec → st.quicServer = some es → st.flow = some f →
      ∃ st',
        handle_quic_event ad st (.datagramFrameReceived d) from_client
          = some (st', [Cmd.udpMessageHook,
              Cmd.sendDatagramFrame (!from_client) (ad.mutateUdp d),
              Cmd.quicTransmit (!from_client)])
        ∧ ∃ f', st'.flow = some f'
            ∧ f'.messages = f.messages ++ [(from_client, ad.mutateUdp d)])
    ∧ (∀ (st : RelayState) (sid : Nat) (d : Bytes) (fin from_client : Bool)
       (ec es : EngineObs) (stream : QuicStream) (f : TCPFlow),
      st.quicClient = some ec → st.quicServer = some es →
      st.streamsById.lookup sid = some stream → stream.flow = some f →
      stream.has_ended from_client = false →
      ∃ st' cmds,
        handle_quic_event ⟨fun b => b, fun b => b⟩ st
            (.streamDataReceived sid d fin) from_client = some (st', cmds)
        ∧ Cmd.sendStreamData (!from_client) stream.streamId d fin ∈ cmds) := by
  refine ⟨?_, ?_, ?_⟩
  · intro ad st sid d fin from_client ec es stream f hc hs hl hf he
    exact handle_stream_data_spec ad st sid d fin from_client
      (if from_client then es else ec) stream f
      (by cases from_client <;> simp [hc, hs]) hl hf he
  · intro ad st d from_client ec es f hc hs hf
    exact handle_datagram_spec ad st d from_client
      (if from_client then es else ec) f
      (by cases from_client <;> simp [hc, hs]) hf
  · intro st sid d fin from_client ec es stream f hc hs hl hf he
    obtain ⟨st', cmds, h₁, h₂, -, -⟩ :=
      handle_stream_data_spec ⟨fun b => b, fun b => b⟩ st sid d fin from_client
        (if from_client then es else ec) stream f
        (by cases from_client <;> simp [hc, hs]) hl hf he
    exact ⟨st', cmds, h₁, h₂⟩

/-- Witness for C3: an unmodified 3-byte `StreamDataReceived` on stream 0
with both engines registered reaches the server engine unchanged. -/
theorem C3_relay_exact_bytes_witness :
    ∃ st' cmds,
      handle_quic_event ⟨fun b => b, fun b => b⟩
          { bufferFromClient := [], bufferFromServer := [],
            flow := some { messages := [], error := none, live := true },
            quicClient := some { closeEvent := none },
            quicServer := some { closeEvent := none },
            streamsById := [(0, QuicStream.mk0 0 false)],
            clientConnected := true, serverConnected := true }
          (.streamDataReceived 0 [65, 66, 67] false) true = some (st', cmds)
      ∧ Cmd.sendStreamData false (QuicStream.mk0 0 false).streamId [65, 66, 67] false ∈ cmds :=
  C3_relay_exact_bytes.2.2
    { bufferFromClient := [], bufferFromServer := [],
      flow := some { messages := [], error := none, live := true },
      quicClient := some { closeEvent := none },
      quicServer := some { closeEvent := none },
      streamsById := [(0, QuicStream.mk0 0 false)],
      clientConnected := true, serverConnected := true }
    0 [65, 66, 67] false true { closeEvent := none } { closeEvent := none }
    (QuicStream.mk0 0 false) { messages := [], error := none, live := true }
    rfl rfl (by decide) (by decide) (by decide)

/-- C10: a `TcpMessageInjected` handled in the Ready state is translated
into a synthetic `StreamDataReceived` with `end_stream` always `False`; as a
consequence an addon-injected TCP message never sets a stream's ended flag
and never triggers `mark_ended` (no terminal or error hook, and every
forwarded `send_stream_data` carries `end_stream = false`). -/
theorem C10_injected_never_ends
    (ad : Addons) (st : RelayState) (fid : Nat) (content : Bytes)
    (from_client : Bool) (stream : QuicStream)
    (hl : st.streamsById.lookup fid = some stream)
    (hid : stream.streamId = fid) :
    state_ready ad st (.tcpMessageInjected fid content from_client)
        = handle_quic_event ad st (.streamDataReceived stream.streamId content false)
            from_client
    ∧ ∀ st' cmds,
        state_ready ad st (.tcpMessageInjected fid content from_client)
            = some (st', cmds) →
          (∀ i s, st.streamsById.lookup i = some s →
             ∃ s', st'.streamsById.lookup i = some s'
               ∧ s'.endedClient = s.endedClient ∧ s'.endedServer = s.endedServer)
          ∧ Cmd.tcpEndHook ∉ cmds ∧ Cmd.tcpErrorHook ∉ cmds
          ∧ (∀ tc i b fl, Cmd.sendStreamData tc i b fl ∈ cmds → fl = false) := by
  have htr : state_ready ad st (.tcpMessageInjected fid content from_client)
      = handle_quic_event ad st (.streamDataReceived stream.streamId content false)
          from_client := by
    simp only [state_ready, hl]
  refine ⟨htr, ?_⟩
  intro st' cmds h
  rw [htr] at h
  unfold handle_quic_event at h
  cases hpeer : (if from_client then st.quicServer else st.quicClient) with
  | none =>
    rw [hpeer] at h
    simp only [Option.some.injEq] at h
    obtain ⟨h1, h2⟩ := Prod.ext_iff.mp h.symm
    simp only at h1 h2
    subst h2
    have hsame : st'.streamsById = st.streamsById := by
      rw [h1]
      cases from_client <;> simp
    refine ⟨?_, by simp, by simp, by simp⟩
    intro i s hi
    rw [hsame]
    exact ⟨s, hi, rfl, rfl⟩
  | some pe =>
    rw [hpeer] at h
    simp only at h
    rw [hid] at h
    exact handle_stream_data_nofin_spec ad st fid content from_client stream hl st' cmds h

/-- Witness for C10: concrete injected message on existing stream 0. -/
theorem C10_injected_never_ends_witness :
    state_ready ⟨fun b => b, fun b => b⟩
        { bufferFromClient := [], bufferFromServer := [],
          flow := some { messages := [], error := none, live := true },
          quicClient := some { closeEvent := none },
          quicServer := some { closeEvent := none },
          streamsById := [(0, QuicStream.mk0 0 false)],
          clientConnected := true, serverConnected := true }
        (.tcpMessageInjected 0 [1, 2] true)
      = handle_quic_event ⟨fun b => b, fun b => b⟩
        { bufferFromClient := [], bufferFromServer := [],
          flow := some { messages := [], error := none, live := true },
          quicClient := some { closeEvent := none },
          quicServer := some { closeEvent := none },
          streamsById := [(0, QuicStream.mk0 0 false)],
          clientConnected := true, serverConnected := true }
        (.streamDataReceived (QuicStream.mk0 0 false).streamId [1, 2] false) true :=
  (C10_injected_never_ends ⟨fun b => b, fun b => b⟩
    { bufferFromClient := [], bufferFromServer := [],
      flow := some { messages := [], error := none, live := true },
      quicClient := some { closeEvent := none },
      quicServer := some { closeEvent := none },
      streamsById := [(0, QuicStream.mk0 0 false)],
      clientConnected := true, serverConnected := true }
    0 [1, 2] true (QuicStream.mk0 0 false) (by decide) (by decide)).1

/-- C5: on `ConnectionClosed` in the Ready state, if the peer engine is
registered and the closed side's engine has a close event, the peer engine
is closed with the same error code, frame type and reason phrase (and no
plain `CloseConnection` is emitted); otherwise a plain `CloseConnection` is
emitted for the peer (and no engine close); an error is recorded on the UDP
flow with `UdpErrorHook` iff a close event exists whose error code is not a
success code; and exactly QUIC `NO_ERROR` (0x0) and HTTP/3 `H3_NO_ERROR`
(0x100) count as success. -/
theorem C5_connection_closed (ad : Addons) (st : RelayState) (from_client : Bool)
    (f : UDPFlow) (st' : RelayState) (cmds : List Cmd)
    (hf : st.flow = some f)
    (h : state_ready ad st (.connectionClosed from_client) = some (st', cmds)) :
    (∀ pq ce, (if from_client then st.quicServer else st.quicClient) = some pq →
      ((if from_client then st.quicClient else st.quicServer).bind
          (fun q => q.closeEvent)) = some ce →
      Cmd.closeQuic (!from_client) ce.errorCode ce.frameType ce.reason ∈ cmds
        ∧ Cmd.quicTransmit (!from_client) ∈ cmds
        ∧ (∀ tc, Cmd.closeConnection tc ∉ cmds))
    ∧ (((if from_client then st.quicServer else st.quicClient) = none
        ∨ ((if from_client then st.quicClient else st.quicServer).bind
            (fun q => q.closeEvent)) = none) →
      Cmd.closeConnection (!from_client) ∈ cmds
        ∧ (∀ a b c d, Cmd.closeQuic a b c d ∉ cmds))
    ∧ ((Cmd.udpErrorHook ∈ cmds) ↔
        ∃ ce, ((if from_client then st.quicClient else st.quicServer).bind
            (fun q => q.closeEvent)) = some ce
          ∧ is_success_error_code ce.errorCode = false)
    ∧ (∃ f', st'.flow = some f'
        ∧ f'.error = (match ((if from_client then st.quicClient else st.quicServer).bind
              (fun q => q.closeEvent)) with
            | some ce => if is_success_error_code ce.errorCode then f.error
                else some (if ce.reason == "" then error_code_to_str ce.errorCode
                  else ce.reason)
            | none => f.error))
    ∧ (∀ c, is_success_error_code c = true ↔ (c = 0 ∨ c = 0x100)) := by
  have hco : state_ready ad st (.connectionClosed from_client)
      = state_ready_closed
          (if from_client then { st with clientConnected := false }
           else { st with serverConnected := false }) from_client := rfl
  rw [hco] at h
  have h1 : (if from_client
        then (if from_client then { st with clientConnected := false }
          else { st with serverConnected := false }).quicServer
        else (if from_client then { st with clientConnected := false }
          else { st with serverConnected := false }).quicClient)
      = (if from_client then st.quicServer else st.quicClient) := by
    cases from_client <;> simp
  have h2 : (if from_client
        then (if from_client then { st with clientConnected := false }
          else { st with serverConnected := false }).quicClient
        else (if from_client then { st with clientConnected := false }
          else { st with serverConnected := false }).quicServer)
      = (if from_client then st.quicClient else st.quicServer) := by
    cases from_client <;> simp
  have h3 : (if from_client then { st with clientConnected := false }
      else { st with serverConnected := false }).flow = some f := by
    cases from_client <;> simp [hf]
  obtain ⟨c1, c2, c3, c4⟩ := state_ready_closed_spec _ from_client f st' cmds
    (if from_client then st.quicServer else st.quicClient)
    (if from_client then st.quicClient else st.quicServer)
    h1 h2 h3 h
  refine ⟨c1, c2, c3, c4, ?_⟩
  intro c
  simp [is_success_error_code, QuicErrorCode_NO_ERROR, H3ErrorCode_H3_NO_ERROR]

/-- Witness for C5: a concrete close of the client side with close event
(error code 5, reason "bad") propagates to the server engine. -/
theorem C5_connection_closed_witness :
    Cmd.closeQuic false 5 none "bad"
      ∈ [Cmd.closeQuic false 5 none "bad", Cmd.quicTransmit false, Cmd.udpErrorHook] :=
  ((C5_connection_closed ⟨fun b => b, fun b => b⟩
      { bufferFromClient := [], bufferFromServer := [],
        flow := some { messages := [], error := none, live := true },
        quicClient := some { closeEvent := some { errorCode := 5, frameType := none, reason := "bad" } },
        quicServer := some { closeEvent := none },
        streamsById := [], clientConnected := true, serverConnected := true }
      true { messages := [], error := none, live := true }
      { bufferFromClient := [], bufferFromServer := [],
        flow := some { messages := [], error := some "bad", live := true },
        quicClient := some { closeEvent := some { errorCode := 5, frameType := none, reason := "bad" } },
        quicServer := some { closeEvent := none },
        streamsById := [], clientConnected := false, serverConnected := true }
      [Cmd.closeQuic false 5 none "bad", Cmd.quicTransmit false, Cmd.udpErrorHook]
      rfl (by decide)).1
    { closeEvent := none } { errorCode := 5, frameType := none, reason := "bad" }
    rfl rfl).1

theorem lookup_none_not_mem {α β : Type} [BEq α] [LawfulBEq α] (l : List (α × β))
    (a : α) (h : l.lookup a = none) : a ∉ l.map Prod.fst := by
  induction l with
  | nil => simp
  | cons e rest ih =>
    obtain ⟨k, v⟩ := e
    by_cases hk : (a == k) = true
    · simp only [List.lookup, hk] at h
      exact absurd h (by simp)
    · simp only [Bool.not_eq_true] at hk
      simp only [List.lookup, hk] at h
      intro hmem
      simp only [List.map_cons, List.mem_cons] at hmem
      rcases hmem with rfl | hm
      · simp at hk
      · exact ih h hm

/-- C1 (evaluation of the code at the failing input): take the engine's
version enum to be {NEGOTIATION = 0, VERSION_1 = 1, VERSION_2 = 0x6b3343cf}
and let the first datagram carry a long header with the unsupported version
0xFF000001.  The reply is a single version-negotiation packet and no engine
is created — but the packet's supported-version list is empty (the
`supported_versions` generator was exhausted by the `not in` membership
test before `encode_quic_version_negotiation` consumed it), while the
supported versions are [1, 0x6b3343cf] ≠ []. -/
theorem C1_version_negotiation_empty_list :
    datagram_received
        { allVersions := [0, 1, 0x6b3343cf], cidLookupHit := false, canRoam := false,
          dataLen := 1200, clientHelloOk := true, hookIgnore := false,
          hookServerTlsFirst := false, serverLayerExists := false,
          serverTlsEstablished := false, serverOpenErr := none, tlsProvided := true }
        (some { version := some 0xFF000001, isInitial := true,
                destinationCid := [1, 2], sourceCid := [3, 4] })
      = { cmds := [Cmd.sendVersionNegotiation [1, 2] [3, 4] []], err := none,
          engineCreated := false }
    ∧ [0, 1, 0x6b3343cf].filter (fun v => v ≠ 0) = [1, 0x6b3343cf]
    ∧ ([] : List Nat) ≠ [1, 0x6b3343cf] := by
  refine ⟨rfl, rfl, by simp⟩

/-- Counterexample for C2 as stated: a key registered by
`handle_connection_id_issued` is still owned after the connection
terminates — `handle_connection_terminated` performs no operation on the
process-wide `connections` table, so keys are not removed on endpoint
termination and an insert can stay unbalanced past the connection's
lifetime. -/
theorem C2_counterexample :
    runCidOps [] [CidOp.issued 7 0 [1], CidOp.terminated 7] = some [((0, [1]), 7)]
      ∧ ([((0, [1]), 7)] : CidTable).lookup (0, [1]) = some 7 :=
  ⟨rfl, rfl⟩

/-- C2 (amended): for every (sockname, connection-ID) key the process-wide
table has at most one owning layer at any time — `issued` inserts only when
the key is absent (otherwise the assertion fails), `retired` removes a key
only when this layer owns it, endpoint termination performs no table
operation, and every assertion-respecting operation sequence keeps the
table's keys duplicate-free. -/
theorem C2_cid_table_single_owner :
    (∀ (t : CidTable) (l s : Nat) (c : Bytes) (t' : CidTable),
      client_handle_connection_id_issued t l s c = some t' →
      t.lookup (s, c) = none ∧ t' = t ++ [((s, c), l)])
    ∧ (∀ (t : CidTable) (l s : Nat) (c : Bytes) (t' : CidTable),
      client_handle_connection_id_retired t l s c = some t' →
      t.lookup (s, c) = some l ∧ t' = t.filter (fun e => e.1 ≠ (s, c)))
    ∧ (∀ (t : CidTable) (l : Nat), terminated_table_effect t l = t)
    ∧ (∀ (ops : List CidOp) (t t' : CidTable),
      runCidOps t ops = some t' →
      (t.map Prod.fst).Nodup → (t'.map Prod.fst).Nodup) := by
  have hiss : ∀ (t : CidTable) (l s : Nat) (c : Bytes) (t' : CidTable),
      client_handle_connection_id_issued t l s c = some t' →
      t.lookup (s, c) = none ∧ t' = t ++ [((s, c), l)] := by
    intro t l s c t' h
    simp only [client_handle_connection_id_issued] at h
    cases hlk : List.lookup (s, c) t with
    | some o => simp [hlk] at h
    | none =>
      simp only [hlk, Option.some.injEq] at h
      exact ⟨rfl, h.symm⟩
  have hret : ∀ (t : CidTable) (l s : Nat) (c : Bytes) (t' : CidTable),
      client_handle_connection_id_retired t l s c = some t' →
      t.lookup (s, c) = some l ∧ t' = t.filter (fun e => e.1 ≠ (s, c)) := by
    intro t l s c t' h
    simp only [client_handle_connection_id_retired] at h
    cases hlk : List.lookup (s, c) t with
    | none => simp [hlk] at h
    | some o =>
      simp only [hlk] at h
      by_cases ho : (o == l) = true
      · rw [if_pos ho] at h
        simp only [Option.some.injEq] at h
        obtain rfl : o = l := eq_of_beq ho
        exact ⟨rfl, h.symm⟩
      · rw [if_neg ho] at h
        exact absurd h (by simp)
  refine ⟨hiss, hret, fun t l => rfl, ?_⟩
  intro ops
  induction ops with
  | nil =>
    intro t t' h hnd
    simp only [runCidOps, Option.some.injEq] at h
    rw [← h]
    exact hnd
  | cons op rest ih =>
    intro t t' h hnd
    cases op with
    | issued l s c =>
      simp only [runCidOps] at h
      cases hstep : client_handle_connection_id_issued t l s c with
      | none => simp [hstep] at h
      | some t₁ =>
        simp only [hstep] at h
        obtain ⟨hnone, rfl⟩ := hiss t l s c t₁ hstep
        refine ih _ t' h ?_
        rw [List.map_append]
        rw [List.nodup_append]
        refine ⟨hnd, by simp, ?_⟩
        intro a ha hb
        simp only [List.map_cons, List.map_nil, List.mem_singleton] at hb
        rw [hb] at ha
        exact lookup_none_not_mem t (s, c) hnone ha
    | retired l s c =>
      simp only [runCidOps] at h
      cases hstep : client_handle_connection_id_retired t l s c with
      | none => simp [hstep] at h
      | some t₁ =>
        simp only [hstep] at h
        obtain ⟨-, rfl⟩ := hret t l s c t₁ hstep
        refine ih _ t' h ?_
        exact hnd.sublist ((List.filter_sublist _).map Prod.fst)
    | terminated l =>
      simp only [runCidOps, terminated_table_effect] at h
      exact ih _ t' h hnd

/-- Witness for C2 (amended): registering a fresh key into the empty table
succeeds and appends the entry. -/
theorem C2_cid_table_single_owner_witness :
    ([] : CidTable).lookup (0, [1]) = none
      ∧ ([((0, [1]), 7)] : CidTable) = [] ++ [((0, [1]), 7)] :=
  C2_cid_table_single_owner.1 [] 7 0 [1] [((0, [1]), 7)] rfl

/-- C9: in `ServerQuicLayer`, when the child opens the server connection
with no TLS yet: a failed runtime `OpenConnection` is answered immediately
with `OpenConnectionCompleted(err)`; a failed `start_tls` leads to a
`CloseConnection` instead (and no completion is sent); on success
`engine.connect` is called and no `OpenConnectionCompleted` is emitted yet
(the command stays pending) — `OpenConnectionCompleted(None)` is delivered
only by the `HandshakeCompleted` handler; and if the underlying connection
closes while the open is outstanding, the child receives "TLS
initialization failed" when TLS settings are absent and "Connection closed
before connect" otherwise. -/
theorem C9_server_open_connection :
    (∀ (st : ServerLayerState) (e : String) (tp : Bool) (eng : EngineState),
      st.core.tlsSet = false → st.openCommandPending = false →
      server_open_connection st (some e) tp eng
        = some ({ st with openCommandPending := false },
            [Cmd.openConnection, Cmd.toChildOpenConnectionCompleted (some e)]))
    ∧ (∀ (st : ServerLayerState) (eng : EngineState),
      st.core.tlsSet = false → st.openCommandPending = false →
      server_open_connection st none false eng
        = some ({ st with openCommandPending := true },
            [Cmd.openConnection, Cmd.quicTlsStartServerHook,
             Cmd.log "No QUIC TLS settings provided by addon(s)." "error",
             Cmd.closeConnection st.core.isClientConn]))
    ∧ (∀ (st : ServerLayerState) (eng : EngineState) (st' : ServerLayerState)
        (cmds : List Cmd),
      st.core.tlsSet = false → st.openCommandPending = false →
      server_open_connection st none true eng = some (st', cmds) →
      Cmd.engineConnect ∈ cmds
        ∧ (∀ e, Cmd.toChildOpenConnectionCompleted e ∉ cmds)
        ∧ st'.openCommandPending = true)
    ∧ (∀ (st : ServerLayerState) (st' : ServerLayerState) (cmds : List Cmd),
      st.openCommandPending = true →
      server_handshake_completed st = some (st', cmds) →
      Cmd.toChildOpenConnectionCompleted none ∈ cmds
        ∧ st'.openCommandPending = false)
    ∧ (∀ st : ServerLayerState, st.openCommandPending = true →
      server_handle_connection_closed st
        = some ({ st with openCommandPending := false },
            [Cmd.toChildOpenConnectionCompleted
              (some (if st.core.tlsSet then "Connection closed before connect"
                else "TLS initialization failed"))])) := by
  refine ⟨?_, ?_, ?_, ?_, ?_⟩
  · intro st e tp eng htls hpend
    simp [server_open_connection, htls, hpend]
  · intro st eng htls hpend
    simp [server_open_connection, htls, hpend]
  · intro st eng st' cmds htls hpend h
    simp only [server_open_connection, htls, hpend, Bool.false_eq_true, if_false] at h
    cases hpe : process_events { st.core with tlsSet := true, quic := some eng } with
    | none => rw [hpe] at h; exact absurd h (by simp)
    | some p =>
      obtain ⟨core', cmds₀⟩ := p
      rw [hpe] at h
      simp only [Option.some.injEq, Prod.mk.injEq] at h
      obtain ⟨rfl, rfl⟩ := h
      refine ⟨?_, ?_, rfl⟩
      · simp
      · intro e hm
        simp only [List.cons_append, List.nil_append, List.mem_cons] at hm
        rcases hm with hm | hm | hm | hm | hm
        · simp at hm
        · simp at hm
        · simp at hm
        · simp at hm
        · exact process_events_no_completed _ core' cmds₀ hpe e hm
  · intro st st' cmds hpend h
    unfold server_handshake_completed at h
    cases hhc : handle_handshake_completed st.core with
    | none => rw [hhc] at h; exact absurd h (by simp)
    | some p =>
      obtain ⟨core', cmds₀⟩ := p
      rw [hhc] at h
      rw [hpend] at h
      simp only [if_true, Option.some.injEq, Prod.mk.injEq] at h
      obtain ⟨h1, h2⟩ := h
      constructor
      · rw [← h2]
        simp
      · rw [← h1]
  · intro st hpend
    simp [server_handle_connection_closed, hpend]

/-- Witness for C9: a failed runtime open is answered immediately. -/
theorem C9_server_open_connection_witness :
    server_open_connection
        { core :=
            { quic := none, tlsSet := false,
              conn := { connected := true, tlsEstablished := false, errorMsg := none },
              wakeups := [], nextToken := 0, routes := [], now := 0,
              isClientConn := false, peername := 0 },
          openCommandPending := false }
        (some "connection refused") true
        { events := [], datagramsToSend := [], timer := 0, stateTerminated := false }
      = some (
          { core :=
              { quic := none, tlsSet := false,
                conn := { connected := true, tlsEstablished := false, errorMsg := none },
                wakeups := [], nextToken := 0, routes := [], now := 0,
                isClientConn := false, peername := 0 },
            openCommandPending := false },
          [Cmd.openConnection,
           Cmd.toChildOpenConnectionCompleted (some "connection refused")]) :=
  C9_server_open_connection.1
    { core :=
        { quic := none, tlsSet := false,
          conn := { connected := true, tlsEstablished := false, errorMsg := none },
          wakeups := [], nextToken := 0, routes := [], now := 0,
          isClientConn := false, peername := 0 },
      openCommandPending := false }
    "connection refused" true
    { events := [], datagramsToSend := [], timer := 0, stateTerminated := false }
    rfl rfl

/-- C8: a `QuicLayer` requests a new wakeup only when no outstanding wakeup
deadline is less than or equal to the engine's next deadline; when
requested, the `Wakeup` command carries delta = deadline − now and the
deadline is recorded in the registry under the command's fresh token; and a
wakeup entry is removed from the registry when its `Wakeup` event fires
(and does not reappear through the subsequent timer-driven
`process_events`). -/
theorem C8_wakeup_registry :
    (∀ (st : QuicLayerState) (q : EngineState) (st' : QuicLayerState) (cmds : List Cmd),
      st.quic = some q → transmit st = some (st', cmds) →
      ((∃ tok d, Cmd.requestWakeup tok d ∈ cmds)
        ↔ ¬ ∃ p ∈ st.wakeups, p.2 ≤ q.timer)
      ∧ ((¬ ∃ p ∈ st.wakeups, p.2 ≤ q.timer) →
          Cmd.requestWakeup st.nextToken (q.timer - st.now) ∈ cmds
          ∧ (st.nextToken, q.timer) ∈ st'.wakeups)
      ∧ ((∃ p ∈ st.wakeups, p.2 ≤ q.timer) → st'.wakeups = st.wakeups))
    ∧ (∀ (st : QuicLayerState) (token : Nat) (eng : EngineState)
        (st' : QuicLayerState) (cmds : List Cmd),
      (∀ p ∈ st.wakeups, p.1 < st.nextToken) →
      handle_wakeup st token eng = some (st', cmds) →
      ∀ d, (token, d) ∉ st'.wakeups) := by
  constructor
  · intro st q st' cmds hq ht
    obtain ⟨hpos, hneg⟩ := transmit_spec st q st' cmds hq ht
    by_cases hany : st.wakeups.any (fun e => decide (e.2 ≤ q.timer)) = true
    · obtain ⟨hw, hn, hc⟩ := hpos hany
      have hex : ∃ p ∈ st.wakeups, p.2 ≤ q.timer := by
        obtain ⟨p, hp, hple⟩ := List.any_eq_true.mp hany
        exact ⟨p, hp, of_decide_eq_true hple⟩
      refine ⟨?_, fun hno => absurd hex hno, fun _ => hw⟩
      constructor
      · rintro ⟨tok, d, hm⟩
        exfalso
        rw [hc] at hm
        obtain ⟨p, -, hpe⟩ := List.mem_map.mp hm
        exact route_datagram_ne_wakeup st p tok d hpe
      · intro hno
        exact absurd hex hno
    · simp only [Bool.not_eq_true] at hany
      obtain ⟨hw, hn, hc⟩ := hneg hany
      have hnex : ¬ ∃ p ∈ st.wakeups, p.2 ≤ q.timer := by
        rintro ⟨p, hp, hle⟩
        have : st.wakeups.any (fun e => decide (e.2 ≤ q.timer)) = true :=
          List.any_eq_true.mpr ⟨p, hp, decide_eq_true hle⟩
        rw [hany] at this
        exact absurd this (by simp)
      refine ⟨⟨fun _ => hnex, fun _ => ⟨st.nextToken, q.timer - st.now, ?_⟩⟩,
        fun _ => ⟨?_, ?_⟩, fun hex => absurd hex hnex⟩
      · rw [hc]
        simp
      · rw [hc]
        simp
      · rw [hw]
        simp
  · intro st token eng st' cmds hbound h d hmem
    unfold handle_wakeup at h
    cases hlk : st.wakeups.lookup token with
    | none => rw [hlk] at h; exact absurd h (by simp)
    | some d₀ =>
      rw [hlk] at h
      simp only at h
      have htok : token < st.nextToken := hbound (token, d₀) (lookup_mem _ _ _ hlk)
      cases hq : st.quic with
      | none =>
        rw [hq] at h
        simp only [Option.some.injEq, Prod.mk.injEq] at h
        obtain ⟨rfl, -⟩ := h
        revert hmem
        simp [List.mem_filter]
      | some q =>
        rw [hq] at h
        obtain ⟨hm, hp⟩ := process_events_wakeups_mono _ st' cmds h
        rcases hp (token, d) hmem with hin | hge
        · simp [List.mem_filter] at hin
        · simp only at hge
          omega

/-- Witness for C8: firing the only outstanding wakeup on a layer without
an engine removes its entry from the registry. -/
theorem C8_wakeup_registry_witness :
    ((0, 3) : Nat × Rat) ∉ ([] : List (Nat × Rat)) :=
  C8_wakeup_registry.2
    { quic := none, tlsSet := true,
      conn := { connected := true, tlsEstablished := true, errorMsg := none },
      wakeups := [(0, 5)], nextToken := 1, routes := [], now := 0,
      isClientConn := true, peername := 0 }
    0 { events := [], datagramsToSend := [], timer := 0, stateTerminated := false }
    { quic := none, tlsSet := true,
      conn := { connected := true, tlsEstablished := true, errorMsg := none },
      wakeups := [], nextToken := 1, routes := [], now := 0,
      isClientConn := true, peername := 0 }
    [] (by simp) rfl 3

/-- C7 (amended): `process_events` consumes engine events in arrival order
(the drain agrees with sequential composition of the one-event handler); on
a `ConnectionTerminated` event it invokes `handle_connection_terminated`,
emits `CloseConnection` if the underlying transport is still connected, and
stops draining even if later events exist — *without* calling `transmit`;
an invocation that drains no `ConnectionTerminated` finally calls
`transmit()`. -/
theorem C7_process_events_amended :
    (∀ (st : QuicLayerState) (e : QuicEvent) (rest : List QuicEvent),
      drainEvents st (e :: rest)
        = match handleOne st e with
          | none => none
          | some (st₁, cmds₁, true) => some (st₁, cmds₁)
          | some (st₁, cmds₁, false) =>
            match drainEvents st₁ rest with
            | none => none
            | some (st₂, cmds₂) => some (st₂, cmds₁ ++ cmds₂))
    ∧ (∀ (st : QuicLayerState) (pre : List QuicEvent) (code : Nat) (ft : Option Nat)
        (r : String) (post post' : List QuicEvent),
      drainEvents st (pre ++ .connectionTerminated code ft r :: post)
        = drainEvents st (pre ++ .connectionTerminated code ft r :: post'))
    ∧ (∀ (st : QuicLayerState) (q : EngineState) (code : Nat) (ft : Option Nat)
        (r : String) (rest : List QuicEvent),
      st.quic = some q → q.events = .connectionTerminated code ft r :: rest →
      process_events st
        = match handle_connection_terminated
              { st with quic := some { q with events := [] } } code r with
          | none => none
          | some (st₁, cmds₁) =>
            some (st₁, cmds₁ ++ (if st₁.conn.connected
              then [Cmd.closeConnection st₁.isClientConn] else [])))
    ∧ (∀ (st : QuicLayerState) (q : EngineState) (st' : QuicLayerState) (cmds : List Cmd),
      st.quic = some q →
      (∀ code ft r, QuicEvent.connectionTerminated code ft r ∉ q.events) →
      process_events st = some (st', cmds) →
      ∃ st₁ cmds₁ tcmds, transmit st₁ = some (st', tcmds) ∧ cmds = cmds₁ ++ tcmds) := by
  refine ⟨drainEvents_cons, drainEvents_stops, ?_, ?_⟩
  · intro st q code ft r rest hq hev
    simp only [process_events, hq, hev, drainEvents]
  · intro st q st' cmds hq hno h
    simp only [process_events, hq] at h
    exact drainEvents_transmits _ q.events hno st' cmds h

/-- Witness for C7 (amended): concrete application of the terminated-path
conjunct, discharging both hypotheses at a concrete layer state. -/
theorem C7_process_events_amended_witness :
    process_events
        { quic := some { events := [.connectionTerminated 1 none "x", .pingAcknowledged], datagramsToSend := [([7], 0)], timer := 10, stateTerminated := true },
          tlsSet := true,
          conn := { connected := true, tlsEstablished := true, errorMsg := none },
          wakeups := [], nextToken := 0, routes := [], now := 0,
          isClientConn := true, peername := 0 }
      = match handle_connection_terminated
            { quic := some { events := [], datagramsToSend := [([7], 0)], timer := 10, stateTerminated := true },
              tlsSet := true,
              conn := { connected := true, tlsEstablished := true, errorMsg := none },
              wakeups := [], nextToken := 0, routes := [], now := 0,
              isClientConn := true, peername := 0 } 1 "x" with
        | none => none
        | some (st₁, cmds₁) =>
          some (st₁, cmds₁ ++ (if st₁.conn.connected
            then [Cmd.closeConnection st₁.isClientConn] else [])) :=
  C7_process_events_amended.2.2.1
    { quic := some { events := [.connectionTerminated 1 none "x", .pingAcknowledged], datagramsToSend := [([7], 0)], timer := 10, stateTerminated := true },
      tlsSet := true,
      conn := { connected := true, tlsEstablished := true, errorMsg := none },
      wakeups := [], nextToken := 0, routes := [], now := 0,
      isClientConn := true, peername := 0 }
    { events := [.connectionTerminated 1 none "x", .pingAcknowledged], datagramsToSend := [([7], 0)], timer := 10, stateTerminated := true }
    1 none "x" [.pingAcknowledged] rfl rfl

/-- Counterexample for C7 as frozen ("every invocation of `process_events`
finally calls `transmit()`"): draining a `ConnectionTerminated` returns
without transmitting — despite a pending outgoing datagram and an empty
wakeup registry, no `SendData` and no `RequestWakeup` is emitted, and the
engine reference is dropped so `transmit` cannot even run afterwards. -/
theorem C7_counterexample :
    process_events
        { quic := some { events := [.connectionTerminated 1 none "x", .pingAcknowledged], datagramsToSend := [([7], 0)], timer := 10, stateTerminated := true },
          tlsSet := true,
          conn := { connected := true, tlsEstablished := true, errorMsg := none },
          wakeups := [], nextToken := 0, routes := [], now := 0,
          isClientConn := true, peername := 0 }
      = some (
          { quic := none, tlsSet := true,
            conn := { connected := true, tlsEstablished := true, errorMsg := none },
            wakeups := [], nextToken := 0, routes := [], now := 0,
            isClientConn := true, peername := 0 },
          [Cmd.log "QUIC connection destroyed: x" "info", Cmd.closeConnection true])
    ∧ transmit
        { quic := none, tlsSet := true,
          conn := { connected := true, tlsEstablished := true, errorMsg := none },
          wakeups := [], nextToken := 0, routes := [], now := 0,
          isClientConn := true, peername := 0 } = none := by
  constructor
  · rfl
  · rfl

/-- C6: every engine event received while the peer's engine is not yet
registered is appended (at the end, preserving arrival order) to that peer's
pending buffer with no other effect; replaying a buffer decomposes
sequentially (so buffered events are handled in their original arrival
order); and upon `QuicStart` of a side whose engine was unset, the peer's
buffered events are replayed through `handle_quic_event` and that buffer is
then cleared. -/
theorem C6_buffering_replay :
    (∀ (ad : Addons) (st : RelayState) (event : QuicEvent) (from_client : Bool),
      (if from_client then st.quicServer else st.quicClient) = none →
      handle_quic_event ad st event from_client
        = some (if from_client
            then { st with bufferFromClient := st.bufferFromClient ++ [event] }
            else { st with bufferFromServer := st.bufferFromServer ++ [event] }, []))
    ∧ (∀ (ad : Addons) (st : RelayState) (l₁ l₂ : List QuicEvent) (from_client : Bool),
      replayBuffer ad st (l₁ ++ l₂) from_client
        = match replayBuffer ad st l₁ from_client with
          | none => none
          | some (st₁, cmds₁) =>
            match replayBuffer ad st₁ l₂ from_client with
            | none => none
            | some (st₂, cmds₂) => some (st₂, cmds₁ ++ cmds₂))
    ∧ (∀ (ad : Addons) (st : RelayState) (engine : EngineObs) st₁ cmds,
      st.quicClient = none →
      replayBuffer ad { st with quicClient := some engine }
          st.bufferFromServer false = some (st₁, cmds) →
      state_ready ad st (.quicStart true engine)
        = some ({ st₁ with bufferFromServer := [] }, cmds))
    ∧ (∀ (ad : Addons) (st : RelayState) (engine : EngineObs) st₁ cmds,
      st.quicServer = none →
      replayBuffer ad { st with quicServer := some engine }
          st.bufferFromClient true = some (st₁, cmds) →
      state_ready ad st (.quicStart false engine)
        = some ({ st₁ with bufferFromClient := [] }, cmds)) := by
  refine ⟨?_, ?_, ?_, ?_⟩
  · intro ad st event from_client hpeer
    unfold handle_quic_event
    rw [hpeer]
  · intro ad st l₁ l₂ from_client
    induction l₁ generalizing st with
    | nil =>
      simp only [List.nil_append, replayBuffer]
      cases h₂ : replayBuffer ad st l₂ from_client with
      | none => rfl
      | some p =>
        obtain ⟨st₂, cmds₂⟩ := p
        simp
    | cons e rest ih =>
      simp only [List.cons_append, replayBuffer]
      cases h₁ : handle_quic_event ad st e from_client with
      | none => rfl
      | some p =>
        obtain ⟨st₁, cmds₁⟩ := p
        simp only [List.append_eq]
        rw [ih st₁]
        cases h₂ : replayBuffer ad st₁ rest from_client with
        | none => rfl
        | some q =>
          obtain ⟨st₂, cmds₂⟩ := q
          simp only
          cases h₃ : replayBuffer ad st₂ l₂ from_client with
          | none => rfl
          | some r =>
            obtain ⟨st₃, cmds₃⟩ := r
            simp
  · intro ad st engine st₁ cmds hqc hrep
    simp [state_ready, hqc, hrep]
  · intro ad st engine st₁ cmds hqs hrep
    simp [state_ready, hqs, hrep]

/-- Witness for C6: a datagram event from the client with no server engine
registered is appended to the client-side pending buffer. -/
theorem C6_buffering_replay_witness :
    handle_quic_event ⟨fun b => b, fun b => b⟩
        { bufferFromClient := [], bufferFromServer := [],
          flow := some { messages := [], error := none, live := true },
          quicClient := some { closeEvent := none }, quicServer := none,
          streamsById := [], clientConnected := true, serverConnected := true }
        (.datagramFrameReceived [9]) true
      = some ({ bufferFromClient := [QuicEvent.datagramFrameReceived [9]],
                bufferFromServer := [],
                flow := some { messages := [], error := none, live := true },
                quicClient := some { closeEvent := none }, quicServer := none,
                streamsById := [], clientConnected := true,
                serverConnected := true }, []) :=
  C6_buffering_replay.1 ⟨fun b => b, fun b => b⟩
    { bufferFromClient := [], bufferFromServer := [],
      flow := some { messages := [], error := none, live := true },
      quicClient := some { closeEvent := none }, quicServer := none,
      streamsById := [], clientConnected := true, serverConnected := true }
    (.datagramFrameReceived [9]) true rfl

/-- C4: at construction exactly the non-sender side of a unidirectional
stream starts ended (both flags false for bidirectional streams);
`ended_client`/`ended_server` are monotonic non-decreasing and marking an
already-ended side is a fatal assertion; `mark_ended` sets the flow's error
and emits `TcpErrorHook` only the first time an error is supplied; when both
sides become ended it emits `TcpEndHook` iff no error was recorded and
always clears the flow's live flag; and once both sides are ended no
further `mark_ended` can succeed, so a stream is made non-live exactly
once. -/
theorem C4_stream_lifecycle :
    (∀ sid ignore,
      (QuicStream.mk0 sid ignore).endedClient
          = (stream_is_unidirectional sid && !stream_is_client_initiated sid)
        ∧ (QuicStream.mk0 sid ignore).endedServer
          = (stream_is_unidirectional sid && stream_is_client_initiated sid))
    ∧ (∀ (s : QuicStream) (client : Bool) (err : Option String),
        s.mark_ended client err = none ↔ s.has_ended client = true)
    ∧ (∀ (s : QuicStream) (client : Bool) (err : Option String) s' cmds,
        s.mark_ended client err = some (s', cmds) →
          (s.endedClient = true → s'.endedClient = true)
          ∧ (s.endedServer = true → s'.endedServer = true)
          ∧ s'.has_ended client = true)
    ∧ (∀ (s : QuicStream) (f : TCPFlow) (client : Bool) (err : Option String) s' cmds,
        s.flow = some f → s.mark_ended client err = some (s', cmds) →
          ((Cmd.tcpErrorHook ∈ cmds) ↔ (err.isSome = true ∧ f.error = none))
          ∧ ∃ f', s'.flow = some f'
              ∧ f'.error = (if err.isSome && f.error.isNone then err else f.error))
    ∧ (∀ (s : QuicStream) (f : TCPFlow) (client : Bool) (err : Option String) s' cmds,
        s.flow = some f → s.mark_ended client err = some (s', cmds) →
        s'.endedClient = true → s'.endedServer = true →
          ∃ f', s'.flow = some f' ∧ f'.live = false
            ∧ ((Cmd.tcpEndHook ∈ cmds) ↔ f'.error = none))
    ∧ (∀ (s : QuicStream) (client : Bool) (err : Option String) s' cmds,
        s.mark_ended client err = some (s', cmds) →
        s'.endedClient = true → s'.endedServer = true →
        ∀ (client' : Bool) (err' : Option String), s'.mark_ended client' err' = none) := by
  refine ⟨?_, ?_, ?_, ?_, ?_, ?_⟩
  · intro sid ignore
    simp [QuicStream.mk0]
  · exact mark_ended_none_iff
  · intro s client err s' cmds h
    obtain ⟨h1, h2⟩ := mark_ended_flags s client err s' cmds h
    refine ⟨?_, ?_, ?_⟩ <;> cases client <;> simp_all [QuicStream.has_ended]
  · intro s f client err s' cmds hf h
    exact mark_ended_error_hook s f client err s' cmds hf h
  · intro s f client err s' cmds hf h hac has
    exact mark_ended_both_ended s f client err s' cmds hf h hac has
  · intro s client err s' cmds h hac has client' err'
    rw [mark_ended_none_iff]
    cases client' <;> simp [QuicStream.has_ended, hac, has]

/-- Witness for C4: concrete evaluation of `mark_ended` on the fresh
bidirectional stream 0, discharging the hypotheses of the monotonicity
conjunct. -/
theorem C4_stream_lifecycle_witness :
    ({ flow := some { messages := [], error := none, live := true },
       streamId := 0, endedClient := true, endedServer := false } : QuicStream).has_ended
        true = true :=
  (C4_stream_lifecycle.2.2.1 (QuicStream.mk0 0 false) true none
    { flow := some { messages := [], error := none, live := true },
      streamId := 0, endedClient := true, endedServer := false } [] (by decide)).2.2

end QuicProof
